import Mathlib

/-!
# Secure channel layer (`src/ua_securechannel.c`)

A shallow embedding of the secure-channel translation unit: the session
registry (attach / detach / lookup / teardown), token rotation, the streaming
chunk sender and the message transmitter.

Conventions of the embedding.

* Pointers are natural numbers; a pointer that may be `NULL` is an `Option`.
* `UA_UInt32` values are natural numbers; where the C code can overflow the
  result is reduced `% 2 ^ 32` explicitly.
* The transport (`UA_Connection`) and the binary codec are collaborators whose
  code lives outside this translation unit.  The transport is a record of its
  configuration, of the status codes its calls return and of the operations
  performed on it so far; the codec is a script of the offsets at which it
  runs out of buffer.
-/

/-! ## Status codes and wire constants -/

/-- A status code is a `UA_UInt32`; `0` is `GOOD`. -/
abbrev UA_StatusCode := Nat

/-- Modelled from the spec: the status codes are constants of a header outside
`src/`; each has its value in the OPC UA status-code table.  Status `Good`. -/
def UA_STATUSCODE_GOOD : UA_StatusCode := 0x00000000
/-- Modelled from the spec: status `InternalError` of §7, with its value in the
OPC UA status-code table. -/
def UA_STATUSCODE_BADINTERNALERROR : UA_StatusCode := 0x80020000
/-- Modelled from the spec: status `OutOfMemory` of §7, with its value in the
OPC UA status-code table. -/
def UA_STATUSCODE_BADOUTOFMEMORY : UA_StatusCode := 0x80030000
/-- Modelled from the spec: status `MessageTooLarge` of §7, with its value in the
OPC UA status-code table. -/
def UA_STATUSCODE_BADTCPMESSAGETOOLARGE : UA_StatusCode := 0x80800000
/-- Status `BadTcpEndpointUrlInvalid` of the OPC UA status-code table; no code of
this unit produces it on purpose. -/
def UA_STATUSCODE_BADTCPENDPOINTURLINVALID : UA_StatusCode := 0x80830000
/-- Status `BadConnectionClosed` of the OPC UA status-code table, a status a
transport may answer. -/
def UA_STATUSCODE_BADCONNECTIONCLOSED : UA_StatusCode := 0x80AE0000

/-- The enumeration `UA_MessageType`, restricted to the kinds this unit writes. -/
inductive UA_MessageType where
  | OPN
  | CLO
  | MSG
deriving DecidableEq, Repr

/-- The enumeration `UA_ChunkType`. -/
inductive UA_ChunkType where
  | INTERMEDIATE
  | FINAL
  | ABORT
deriving DecidableEq, Repr

/-- Modelled from the spec: the enumerators of `UA_MessageType` are declared in a
header outside `src/`; §6 names the kinds, and the values taken here are their
OPC UA wire values, the three ASCII letters of the kind in the low three bytes
of the combined tag. -/
def UA_MessageType.toNat : UA_MessageType → Nat
  | .OPN => 0x4E504F
  | .CLO => 0x4F4C43
  | .MSG => 0x47534D

/-- Modelled from the spec: the enumerators of `UA_ChunkType` are declared in a
header outside `src/`; §6 names the kinds, and the values taken here are their
OPC UA wire values, the ASCII letter of the kind in the top byte of the
combined tag. -/
def UA_ChunkType.toNat : UA_ChunkType → Nat
  | .INTERMEDIATE => 0x43000000
  | .FINAL => 0x46000000
  | .ABORT => 0x41000000

/-! ## Data model -/

/-- A byte string owned by the channel (its bytes). -/
abbrev UA_ByteString := List Nat

/-- The identifier of a `UA_NodeId`, tagged with its `identifierType`. -/
inductive UA_NodeIdIdentifier where
  | numeric (n : Nat)
  | string (s : List Nat)
  | guid (g : Nat)
  | byteString (b : List Nat)
deriving DecidableEq, Repr

/-- A node identifier. -/
structure UA_NodeId where
  namespaceIndex : Nat
  identifier : UA_NodeIdIdentifier
deriving DecidableEq, Repr

/-- The record `UA_ChannelSecurityToken`: channel id, token id and the validity
metadata (creation time and revised lifetime). -/
structure UA_ChannelSecurityToken where
  channelId : Nat
  tokenId : Nat
  createdAt : Int
  revisedLifetime : Nat
deriving DecidableEq, Repr

/-- Modelled from the spec: `UA_ChannelSecurityToken_init` is generated code
outside `src/`; it yields the empty sentinel, every field zero (§3: token id
`0` means that no token has been issued). -/
def UA_ChannelSecurityToken_init : UA_ChannelSecurityToken :=
  { channelId := 0, tokenId := 0, createdAt := 0, revisedLifetime := 0 }

/-- The asymmetric algorithm parameters kept per side. -/
structure UA_AsymmetricAlgorithmSecurityHeader where
  securityPolicyUri : UA_ByteString
  senderCertificate : UA_ByteString
  receiverCertificateThumbprint : UA_ByteString
deriving DecidableEq, Repr

/-- Modelled from the spec: `UA_AsymmetricAlgorithmSecurityHeader_init` and
`_deleteMembers` are generated code outside `src/`; both leave the record with
no owned bytes. -/
def UA_AsymmetricAlgorithmSecurityHeader_init : UA_AsymmetricAlgorithmSecurityHeader :=
  { securityPolicyUri := [], senderCertificate := [], receiverCertificateThumbprint := [] }

/-- The three fixed headers of a chunk, as `UA_SecureChannel_sendChunk` fills them. -/
structure ChunkHeaders where
  messageTypeAndChunkType : Nat
  messageSize : Nat
  secureChannelId : Nat
  tokenId : Nat
  sequenceNumber : Nat
  requestId : Nat
deriving DecidableEq, Repr

/-- A transport buffer (`UA_ByteString *dst`): its declared length and the
headers encoded into its first 24 bytes, if any were. -/
structure Buffer where
  length : Nat
  headers : Option ChunkHeaders
deriving DecidableEq, Repr

/-- An operation performed on the transport, with the C member that was called. -/
inductive TransportOp where
  | getSendBuffer (length : Nat)
  | send (buf : Buffer)
  | releaseSendBuffer (buf : Buffer)
  | releaseRecvBuffer (buf : Buffer)
  | close
deriving DecidableEq, Repr

/-- The configuration `localConf` of a connection. -/
structure UA_ConnectionConfig where
  sendBufferSize : Nat
  maxChunkCount : Nat
deriving DecidableEq, Repr

/-- The transport a channel is bound to.  `getSendBufferStatus i` and
`sendStatus i` are the statuses the transport returns to the `i`-th call of
`getSendBuffer` and of `send`; `ops` is the trace of the calls made so far,
oldest first; `hasClose` says whether the `close` member is set. -/
structure UA_Connection where
  localConf : UA_ConnectionConfig
  hasClose : Bool
  getSendBufferStatus : Nat → UA_StatusCode
  sendStatus : Nat → UA_StatusCode
  ops : List TransportOp

/-- A session: this unit touches its back-reference `channel` and reads its
authentication token. -/
structure UA_Session where
  channel : Option Nat
  authenticationToken : UA_NodeId
deriving DecidableEq, Repr

/-- A registry node: a pointer to a session (possibly `NULL`). -/
structure SessionEntry where
  session : Option Nat
deriving DecidableEq, Repr

/-- The secure channel. -/
structure UA_SecureChannel where
  securityMode : Nat
  securityToken : UA_ChannelSecurityToken
  nextSecurityToken : UA_ChannelSecurityToken
  clientAsymAlgSettings : UA_AsymmetricAlgorithmSecurityHeader
  serverAsymAlgSettings : UA_AsymmetricAlgorithmSecurityHeader
  clientNonce : UA_ByteString
  serverNonce : UA_ByteString
  sequenceNumber : Nat
  connection : Option UA_Connection
  sessions : List SessionEntry

/-- The memory the registry operations work on: the channels and the sessions,
each addressed by its pointer. -/
structure World where
  channels : Nat → UA_SecureChannel
  sessions : Nat → UA_Session

/-! ## Channel lifecycle and session registry -/

/-- Function `UA_SecureChannel_init` (lines 8-19). -/
def UA_SecureChannel_init : UA_SecureChannel :=
  { securityMode := 0
    securityToken := UA_ChannelSecurityToken_init
    nextSecurityToken := UA_ChannelSecurityToken_init
    clientAsymAlgSettings := UA_AsymmetricAlgorithmSecurityHeader_init
    serverAsymAlgSettings := UA_AsymmetricAlgorithmSecurityHeader_init
    clientNonce := []
    serverNonce := []
    sequenceNumber := 0
    connection := none
    sessions := [] }

/-- Store `v` at pointer `p`. -/
def store {α : Type} (mem : Nat → α) (p : Nat) (v : α) : Nat → α :=
  fun q => if q = p then v else mem q

/-- The loop of lines 36-41 over the registry: every entry with a session
clears that session's back-reference; every entry is unlinked and freed. -/
def clearBackReferences (sessions : Nat → UA_Session) : List SessionEntry → Nat → UA_Session
  | [] => sessions
  | se :: rest =>
    match se.session with
    | some s => clearBackReferences (store sessions s { sessions s with channel := none }) rest
    | none => clearBackReferences sessions rest

/-- Modelled from the spec: `UA_Connection_detachSecureChannel` and the `close`
member are the transport's (outside `src/`): the transport is unbound from the
channel and asked to close itself (§4.1).  The result is the connection after
lines 30-32. -/
def closeConnection (c : UA_Connection) : UA_Connection :=
  if c.hasClose then { c with ops := c.ops ++ [TransportOp.close] } else c

/-- Function `UA_SecureChannel_deleteMembersCleanup` (lines 21-42).  Returns the memory
after the call and the connection that was detached and closed, if one was
bound.  The token records own no memory and are left as they are. -/
def UA_SecureChannel_deleteMembersCleanup (w : World) (channel : Nat) :
    World × Option UA_Connection :=
  let ch := w.channels channel
  let ch1 : UA_SecureChannel :=
    { ch with
      serverAsymAlgSettings := UA_AsymmetricAlgorithmSecurityHeader_init
      serverNonce := []
      clientAsymAlgSettings := UA_AsymmetricAlgorithmSecurityHeader_init
      clientNonce := []
      connection := none
      sessions := [] }
  ({ channels := store w.channels channel ch1
     sessions := clearBackReferences w.sessions ch.sessions },
   ch.connection.map closeConnection)

/-- Function `UA_SecureChannel_attachSession` (lines 53-71).  `allocOk` says whether
`UA_malloc` returned an entry; `session` is a valid session pointer (the code
dereferences it). -/
def UA_SecureChannel_attachSession (w : World) (channel session : Nat) (allocOk : Bool) : World :=
  if !allocOk then w
  else if (w.sessions session).channel ≠ none then w
  else
    let ch := w.channels channel
    { channels := store w.channels channel
        { ch with sessions := { session := some session } :: ch.sessions }
      sessions := store w.sessions session
        { w.sessions session with channel := some channel } }

/-- The loop of lines 77-83: unlink the first entry whose session pointer is
`session`. -/
def removeFirstEntry (session : Option Nat) : List SessionEntry → List SessionEntry
  | [] => []
  | se :: rest => if se.session ≠ session then se :: removeFirstEntry session rest else rest

/-- Function `UA_SecureChannel_detachSession` (lines 73-84). -/
def UA_SecureChannel_detachSession (w : World) (channel : Nat) (session : Option Nat) : World :=
  let sessions1 :=
    match session with
    | some s => store w.sessions s { w.sessions s with channel := none }
    | none => w.sessions
  let ch := w.channels channel
  { channels := store w.channels channel
      { ch with sessions := removeFirstEntry session ch.sessions }
    sessions := sessions1 }

/-- The scan of lines 88-91: it stops at the first entry whose session carries
the token.  Every entry reached has its session pointer dereferenced, so the
scan has no result (`none`) when it reaches an entry with a `NULL` session;
otherwise the result is the session found, or `NULL` at the end of the list. -/
def getSessionScan (sessions : Nat → UA_Session) (token : UA_NodeId) :
    List SessionEntry → Option (Option Nat)
  | [] => some none
  | se :: rest =>
    match se.session with
    | none => none
    | some s =>
      if (sessions s).authenticationToken = token then some (some s)
      else getSessionScan sessions token rest

/-- Function `UA_SecureChannel_getSession` (lines 86-95). -/
def UA_SecureChannel_getSession (w : World) (channel : Nat) (token : UA_NodeId) :
    Option (Option Nat) :=
  getSessionScan w.sessions token (w.channels channel).sessions

/-- Function `UA_SecureChannel_revolveTokens` (lines 97-105). -/
def UA_SecureChannel_revolveTokens (channel : UA_SecureChannel) : UA_SecureChannel :=
  if channel.nextSecurityToken.tokenId = 0 then channel
  else
    { channel with
      securityToken := channel.nextSecurityToken
      nextSecurityToken := UA_ChannelSecurityToken_init }

/-! ## Streaming chunk sender and message transmitter -/

/-- The per-message request state `UA_Request` (declared outside `src/`); its
`channel` pointer is the channel of the `SendState` it is part of. -/
structure UA_Request where
  requestId : Nat
  messageType : UA_MessageType
  chunkType : UA_ChunkType
  chunksLeft : Int
deriving DecidableEq, Repr

/-- What `UA_SecureChannel_sendChunk` reads and writes through its three
pointers: the channel behind `requestInfo->channel`, the request state, the
buffer `*dst` and the write offset `*offset`. -/
structure SendState where
  channel : UA_SecureChannel
  requestInfo : UA_Request
  dst : Buffer
  offset : Nat

/-- Number of `getSendBuffer` calls in a trace. -/
def countGetSendBuffer : List TransportOp → Nat
  | [] => 0
  | TransportOp.getSendBuffer _ :: rest => countGetSendBuffer rest + 1
  | _ :: rest => countGetSendBuffer rest

/-- Number of `send` calls in a trace. -/
def countSend : List TransportOp → Nat
  | [] => 0
  | TransportOp.send _ :: rest => countSend rest + 1
  | _ :: rest => countSend rest

/-- Modelled from the spec: the transport's `send` member (outside `src/`):
the buffer is handed over and a status comes back (§6). -/
def UA_Connection.send (c : UA_Connection) (buf : Buffer) : UA_StatusCode × UA_Connection :=
  (c.sendStatus (countSend c.ops), { c with ops := c.ops ++ [TransportOp.send buf] })

/-- Modelled from the spec: the transport's `releaseRecvBuffer` member (outside
`src/`): the buffer is given back to the transport. -/
def UA_Connection.releaseRecvBuffer (c : UA_Connection) (buf : Buffer) : UA_Connection :=
  { c with ops := c.ops ++ [TransportOp.releaseRecvBuffer buf] }

/-- Modelled from the spec: the transport's `getSendBuffer` member (outside
`src/`): on success `*dst` is a fresh buffer of the requested length, on
failure `*dst` is left alone (§6). -/
def UA_Connection.getSendBuffer (c : UA_Connection) (length : Nat) (buf : Buffer) :
    UA_StatusCode × UA_Connection × Buffer :=
  let r := c.getSendBufferStatus (countGetSendBuffer c.ops)
  (r, { c with ops := c.ops ++ [TransportOp.getSendBuffer length] },
    if r = UA_STATUSCODE_GOOD then { length := length, headers := none } else buf)

/-- Modelled from the spec: the three header encoders of lines 135-137 are
generated code outside `src/`; their statuses are discarded by the caller.
They write the six 4-byte header fields at the start of the buffer and advance
the offset by 12, 4 and 8 bytes (§6). -/
def encodeHeaders (h : ChunkHeaders) (dst : Buffer) (offset : Nat) : Buffer × Nat :=
  ({ dst with headers := some h }, offset + 12 + 4 + 8)

/-- Function `UA_SecureChannel_sendChunk` (lines 107-152), single-threaded build.
The declarations of `UA_Request`, of the header records and of the channel's
counter are outside `src/`: `chunksLeft` is compared and decremented as an
integer; the header fields are 4 bytes wide (§6: six fields in 24 bytes), so
`messageSize` is the `size_t` offset narrowed to 32 bits and the sequence
number is a 32-bit counter that wraps.  The status of `send` is discarded
(line 140). -/
def UA_SecureChannel_sendChunk (st : SendState) : UA_StatusCode × SendState :=
  match st.channel.connection with
  | none => (UA_STATUSCODE_BADINTERNALERROR, st)
  | some connection =>
    if st.requestInfo.chunksLeft < 1 then (UA_STATUSCODE_BADTCPMESSAGETOOLARGE, st)
    else
      let requestInfo := { st.requestInfo with chunksLeft := st.requestInfo.chunksLeft - 1 }
      let messageSize := st.offset % 2 ^ 32
      let sequenceNumber := (st.channel.sequenceNumber + 1) % 2 ^ 32
      let headers : ChunkHeaders :=
        { messageTypeAndChunkType := requestInfo.messageType.toNat + requestInfo.chunkType.toNat
          messageSize := messageSize
          secureChannelId := st.channel.securityToken.channelId
          tokenId := st.channel.securityToken.tokenId
          sequenceNumber := sequenceNumber
          requestId := requestInfo.requestId }
      let enc := encodeHeaders headers st.dst 0
      let dst1 : Buffer := { enc.1 with length := messageSize }
      let c1 := (connection.send dst1).2
      let c2 := c1.releaseRecvBuffer dst1
      if requestInfo.chunkType = UA_ChunkType.INTERMEDIATE then
        let got := c2.getSendBuffer c2.localConf.sendBufferSize dst1
        (got.1,
          { channel := { st.channel with sequenceNumber := sequenceNumber, connection := some got.2.1 }
            requestInfo := requestInfo
            dst := { got.2.2 with length := c2.localConf.sendBufferSize }
            offset := 24 })
      else
        (UA_STATUSCODE_GOOD,
          { channel := { st.channel with sequenceNumber := sequenceNumber, connection := some c2 }
            requestInfo := requestInfo
            dst := dst1
            offset := enc.2 })

/-- Modelled from the spec: the binary codec is outside `src/` (§6).  What it
does with one payload is given as a script: the status and the write offset of
`UA_NodeId_encodeBinary` on the wire type identifier, the write offsets at
which the payload encoder finds its buffer exhausted and calls the overflow
callback, and the encoder's own status and write offset at the end. -/
structure Codec where
  typeIdStatus : UA_StatusCode
  typeIdOffset : Nat
  overflowOffsets : List Nat
  payloadStatus : UA_StatusCode
  finalOffset : Nat
deriving DecidableEq, Repr

/-- Modelled from the spec: `UA_encodeBinary` with `UA_SecureChannel_sendChunk`
as overflow callback (§4.4, §6): at each overflow the callback runs on the
current buffer and offset; the encoder stops at and returns the first status
of the callback that is not good, and otherwise ends with its own status. -/
def UA_encodeBinary (payloadStatus : UA_StatusCode) (finalOffset : Nat) :
    List Nat → SendState → UA_StatusCode × SendState
  | [], st => (payloadStatus, { st with offset := finalOffset })
  | p :: rest, st =>
    let r := UA_SecureChannel_sendChunk { st with offset := p }
    if r.1 ≠ UA_STATUSCODE_GOOD then r
    else UA_encodeBinary payloadStatus finalOffset rest r.2

/-- The type descriptor `UA_DataType`: this unit reads its `typeId`. -/
structure UA_DataType where
  typeId : UA_NodeId
deriving DecidableEq, Repr

/-- Lines 178-184: the message kind chosen from the numeric identifier held in
`typeId` at that point. -/
def messageTypeOf (numeric : Nat) : UA_MessageType :=
  if numeric = 446 ∨ numeric = 449 then UA_MessageType.OPN
  else if numeric = 452 ∨ numeric = 455 then UA_MessageType.CLO
  else UA_MessageType.MSG

/-- Lines 173-189 of `UA_SecureChannel_sendBinaryMessage`: the locals once the
request state is set up and the wire type identifier is encoded.  `numeric` is
`typeId.identifier.numeric` after line 164 and `message` the initial buffer. -/
def stateAfterTypeId (channel : UA_SecureChannel) (connection : UA_Connection)
    (requestId : Nat) (content : Codec) (numeric : Nat) (message : Buffer) : SendState :=
  { channel := channel
    requestInfo :=
      { chunksLeft := (connection.localConf.maxChunkCount : Int)
        messageType := messageTypeOf numeric
        chunkType := UA_ChunkType.INTERMEDIATE
        requestId := requestId }
    dst := message
    offset := content.typeIdOffset }

/-- Line 193: the chunk kind of the request state becomes FINAL. -/
def switchToFinal (st : SendState) : SendState :=
  { st with requestInfo := { st.requestInfo with chunkType := UA_ChunkType.FINAL } }

/-- Lines 173-197 of `UA_SecureChannel_sendBinaryMessage`, after the initial
buffer was acquired (with status `GOOD` in `retval`).  Returns the status and
the final values of the locals and of the channel. -/
def sendBinaryMessageBody (channel : UA_SecureChannel) (connection : UA_Connection)
    (requestId : Nat) (content : Codec) (numeric : Nat) (message : Buffer) :
    UA_StatusCode × SendState :=
  let retval1 := UA_STATUSCODE_GOOD ||| content.typeIdStatus
  let r2 := UA_encodeBinary content.payloadStatus content.finalOffset content.overflowOffsets
    (stateAfterTypeId channel connection requestId content numeric message)
  let retval2 := retval1 ||| r2.1
  let r3 := UA_SecureChannel_sendChunk (switchToFinal r2.2)
  (retval2 ||| r3.1, r3.2)

/-- What a call of `UA_SecureChannel_sendBinaryMessage` leaves behind: the
status it returns, the channel (with its transport) after the call, and the
last value of the local `requestInfo` when the call got as far as line 174. -/
structure SendResult where
  status : UA_StatusCode
  channel : UA_SecureChannel
  requestInfo : Option UA_Request

/-- Function `UA_SecureChannel_sendBinaryMessage` (lines 154-198).  `encodingOffset` is
the constant `UA_ENCODINGOFFSET_BINARY`, defined in a header outside `src/`;
`content` is the payload as the codec sees it. -/
def UA_SecureChannel_sendBinaryMessage (encodingOffset : Nat) (channel : UA_SecureChannel)
    (requestId : Nat) (content : Codec) (contentType : UA_DataType) : SendResult :=
  match channel.connection with
  | none => { status := UA_STATUSCODE_BADINTERNALERROR, channel := channel, requestInfo := none }
  | some connection =>
    match contentType.typeId.identifier with
    | UA_NodeIdIdentifier.numeric n =>
      let numeric := (n + encodingOffset) % 2 ^ 32
      let got := connection.getSendBuffer connection.localConf.sendBufferSize
        { length := 0, headers := none }
      if got.1 ≠ UA_STATUSCODE_GOOD then
        { status := got.1
          channel := { channel with connection := some got.2.1 }
          requestInfo := none }
      else
        let r := sendBinaryMessageBody { channel with connection := some got.2.1 } got.2.1
          requestId content numeric got.2.2
        { status := r.1, channel := r.2.channel, requestInfo := some r.2.requestInfo }
    | _ => { status := UA_STATUSCODE_BADINTERNALERROR, channel := channel, requestInfo := none }

/-! ## Calls on the registry, and the states they are run from -/

/-- A call of one of the three registry operations. -/
inductive RegistryCall where
  | attach (channel session : Nat) (allocOk : Bool)
  | detach (channel : Nat) (session : Option Nat)
  | cleanup (channel : Nat)
deriving DecidableEq, Repr

/-- The memory after one call. -/
def RegistryCall.run (w : World) : RegistryCall → World
  | .attach channel session allocOk => UA_SecureChannel_attachSession w channel session allocOk
  | .detach channel session => UA_SecureChannel_detachSession w channel session
  | .cleanup channel => (UA_SecureChannel_deleteMembersCleanup w channel).1

/-- The memory after a finite sequence of calls, first call first. -/
def runCalls (w : World) : List RegistryCall → World
  | [] => w
  | call :: rest => runCalls (call.run w) rest

/-- Every registry is empty and every back-reference is absent. -/
def Fresh (w : World) : Prop :=
  (∀ c, (w.channels c).sessions = []) ∧ ∀ s, (w.sessions s).channel = none

/-- The back-reference of `s` is `c` exactly when `c` has an entry for `s`. -/
def Consistent (w : World) : Prop :=
  ∀ s c, (w.sessions s).channel = some c ↔
    ({ session := some s } : SessionEntry) ∈ (w.channels c).sessions

/-- No registry holds two entries with the same session pointer. -/
def NoDuplicates (w : World) : Prop :=
  ∀ c, (w.channels c).sessions.Nodup

/-- A call is aimed when it is not a detach of a session from a channel other
than the one the session is attached to. -/
def RegistryCall.aimed (w : World) : RegistryCall → Bool
  | .detach channel (some s) =>
    decide ((w.sessions s).channel = none ∨ (w.sessions s).channel = some channel)
  | _ => true

/-- Every call of the sequence is aimed in the memory it is run from. -/
def aimedCalls (w : World) : List RegistryCall → Bool
  | [] => true
  | call :: rest => call.aimed w && aimedCalls (call.run w) rest

/-- A memory of initialised channels and unattached sessions; session `s`
carries the numeric authentication token `s`. -/
def freshWorld : World :=
  { channels := fun _ => UA_SecureChannel_init
    sessions := fun s =>
      { channel := none
        authenticationToken := { namespaceIndex := 0, identifier := UA_NodeIdIdentifier.numeric s } } }

/-- The rotation as the specification words it (§4.3): nothing happens when no
pending token has been issued; otherwise the current token is the whole pending
record, the pending slot is the empty sentinel and every other field is kept. -/
def rotateReference (c : UA_SecureChannel) : UA_SecureChannel :=
  match c.nextSecurityToken.tokenId with
  | 0 => c
  | _ + 1 =>
    { securityMode := c.securityMode
      securityToken := c.nextSecurityToken
      nextSecurityToken := { channelId := 0, tokenId := 0, createdAt := 0, revisedLifetime := 0 }
      clientAsymAlgSettings := c.clientAsymAlgSettings
      serverAsymAlgSettings := c.serverAsymAlgSettings
      clientNonce := c.clientNonce
      serverNonce := c.serverNonce
      sequenceNumber := c.sequenceNumber
      connection := c.connection
      sessions := c.sessions }

/-! ## Traces of the send path, and the states the theorems are run from -/

/-- The buffer a chunk is sent in by lines 120-138, from the message kind, the
chunk kind and the request id of the request state, the current token, the
sequence number before the call and the write offset. -/
def chunkBufferOf (messageType : UA_MessageType) (chunkType : UA_ChunkType) (requestId : Nat)
    (token : UA_ChannelSecurityToken) (sequenceNumber offset : Nat) : Buffer :=
  { length := offset % 2 ^ 32
    headers := some
      { messageTypeAndChunkType := messageType.toNat + chunkType.toNat
        messageSize := offset % 2 ^ 32
        secureChannelId := token.channelId
        tokenId := token.tokenId
        sequenceNumber := (sequenceNumber + 1) % 2 ^ 32
        requestId := requestId } }

/-- The transport operations of a run of intermediate chunks, one chunk per
overflow offset, starting from the given sequence number. -/
def intermediateOps (messageType : UA_MessageType) (requestId : Nat)
    (token : UA_ChannelSecurityToken) (sendBufferSize : Nat) :
    Nat → List Nat → List TransportOp
  | _, [] => []
  | sequenceNumber, p :: rest =>
    TransportOp.send
      (chunkBufferOf messageType UA_ChunkType.INTERMEDIATE requestId token sequenceNumber p) ::
    TransportOp.releaseRecvBuffer
      (chunkBufferOf messageType UA_ChunkType.INTERMEDIATE requestId token sequenceNumber p) ::
    TransportOp.getSendBuffer sendBufferSize ::
    intermediateOps messageType requestId token sendBufferSize ((sequenceNumber + 1) % 2 ^ 32) rest

/-- The buffers handed to `send` in a trace, oldest first. -/
def sentBuffers : List TransportOp → List Buffer
  | [] => []
  | TransportOp.send buf :: rest => buf :: sentBuffers rest
  | _ :: rest => sentBuffers rest

/-- The trace of the transport a channel is bound to (empty when unbound). -/
def channelOps (channel : UA_SecureChannel) : List TransportOp :=
  match channel.connection with
  | some c => c.ops
  | none => []

/-- The combined tag of a sent buffer. -/
def Buffer.tag (b : Buffer) : Option Nat :=
  b.headers.map ChunkHeaders.messageTypeAndChunkType

/-- The sequence number written into a sent buffer. -/
def Buffer.sequenceNumber (b : Buffer) : Option Nat :=
  b.headers.map ChunkHeaders.sequenceNumber

/-- A transport with the given configuration and call statuses, not yet used. -/
def transportWith (sendBufferSize maxChunkCount : Nat)
    (getSendBufferStatus sendStatus : Nat → UA_StatusCode) : UA_Connection :=
  { localConf := { sendBufferSize := sendBufferSize, maxChunkCount := maxChunkCount }
    hasClose := true
    getSendBufferStatus := getSendBufferStatus
    sendStatus := sendStatus
    ops := [] }

/-- A transport all of whose calls succeed. -/
def goodTransport (sendBufferSize maxChunkCount : Nat) : UA_Connection :=
  transportWith sendBufferSize maxChunkCount (fun _ => UA_STATUSCODE_GOOD)
    (fun _ => UA_STATUSCODE_GOOD)

/-- An initialised channel bound to a transport, with current token
`{channelId = 7, tokenId = 42}` and the given sequence number. -/
def boundChannel (c : UA_Connection) (sequenceNumber : Nat) : UA_SecureChannel :=
  { UA_SecureChannel_init with
    securityToken := { channelId := 7, tokenId := 42, createdAt := 0, revisedLifetime := 0 }
    sequenceNumber := sequenceNumber
    connection := some c }

/-- A type descriptor with a numeric identifier in namespace 0. -/
def numericType (n : Nat) : UA_DataType :=
  { typeId := { namespaceIndex := 0, identifier := UA_NodeIdIdentifier.numeric n } }

/-- A payload the codec encodes without failure of its own: the type
identifier takes 4 bytes, the buffer overflows at the given offsets and the
encoding ends at `finalOffset`. -/
def payloadScript (overflowOffsets : List Nat) (finalOffset : Nat) : Codec :=
  { typeIdStatus := UA_STATUSCODE_GOOD
    typeIdOffset := 28
    overflowOffsets := overflowOffsets
    payloadStatus := UA_STATUSCODE_GOOD
    finalOffset := finalOffset }

/-- The channel's sequence number after `k` chunks were sent. -/
def sequenceAfter : Nat → Nat → Nat
  | sequenceNumber, 0 => sequenceNumber
  | sequenceNumber, k + 1 => sequenceAfter ((sequenceNumber + 1) % 2 ^ 32) k

/-- The state `UA_SecureChannel_sendChunk` is called in for a MESSAGE with
request id 1001 on `boundChannel (goodTransport 8192 4)`. -/
def chunkState (sequenceNumber offset : Nat) (chunkType : UA_ChunkType) (chunksLeft : Int) :
    SendState :=
  { channel := boundChannel (goodTransport 8192 4) sequenceNumber
    requestInfo :=
      { requestId := 1001
        messageType := UA_MessageType.MSG
        chunkType := chunkType
        chunksLeft := chunksLeft }
    dst := { length := 8192, headers := none }
    offset := offset }

/-- A transport whose first `getSendBuffer` succeeds and whose later ones fail
with `BadOutOfMemory`; every `send` succeeds. -/
def oneBufferTransport (sendBufferSize maxChunkCount : Nat) : UA_Connection :=
  transportWith sendBufferSize maxChunkCount
    (fun i => if i = 0 then UA_STATUSCODE_GOOD else UA_STATUSCODE_BADOUTOFMEMORY)
    (fun _ => UA_STATUSCODE_GOOD)

/-- A transport whose `getSendBuffer` succeeds and whose every `send` fails
with `BadConnectionClosed`. -/
def closedTransport (sendBufferSize maxChunkCount : Nat) : UA_Connection :=
  transportWith sendBufferSize maxChunkCount (fun _ => UA_STATUSCODE_GOOD)
    (fun _ => UA_STATUSCODE_BADCONNECTIONCLOSED)

/-- One emission of a chunk on a channel: the request state, the buffer and the
write offset `UA_SecureChannel_sendChunk` is called with. -/
structure Emission where
  requestInfo : UA_Request
  dst : Buffer
  offset : Nat
deriving DecidableEq, Repr

/-- The channel after a sequence of `UA_SecureChannel_sendChunk` calls on it,
first call first; the calls may belong to one message or to several. -/
def runEmissions (channel : UA_SecureChannel) : List Emission → UA_SecureChannel
  | [] => channel
  | e :: rest =>
    runEmissions (UA_SecureChannel_sendChunk
      { channel := channel, requestInfo := e.requestInfo, dst := e.dst, offset := e.offset }).2.channel
      rest

/-- Number of emissions that pass the budget check. -/
def acceptedCount : List Emission → Nat
  | [] => 0
  | e :: rest => if e.requestInfo.chunksLeft < 1 then acceptedCount rest else acceptedCount rest + 1

/-- The sequence numbers written into the buffers sent in a trace, oldest first. -/
def sentSequenceNumbers (ops : List TransportOp) : List Nat :=
  (sentBuffers ops).filterMap Buffer.sequenceNumber

/-- A final chunk of 100 bytes of a MESSAGE with request id 1001 and budget 1. -/
def finalEmission : Emission :=
  { requestInfo :=
      { requestId := 1001
        messageType := UA_MessageType.MSG
        chunkType := UA_ChunkType.FINAL
        chunksLeft := 1 }
    dst := { length := 8192, headers := none }
    offset := 100 }

/-- Whether the identifier is of numeric kind (`UA_NODEIDTYPE_NUMERIC`). -/
def UA_NodeIdIdentifier.isNumeric : UA_NodeIdIdentifier → Bool
  | .numeric _ => true
  | _ => false

/-- The status and the locals of `UA_SecureChannel_sendBinaryMessage` after line
190, when the channel is bound to `c`, the type identifier is the numeric `n`
and the initial buffer was acquired. -/
def payloadEncoded (encodingOffset : Nat) (channel : UA_SecureChannel) (c : UA_Connection)
    (requestId : Nat) (content : Codec) (n : Nat) : UA_StatusCode × SendState :=
  UA_encodeBinary content.payloadStatus content.finalOffset content.overflowOffsets
    (stateAfterTypeId
      { channel with
        connection := some
          { c with ops := c.ops ++ [TransportOp.getSendBuffer c.localConf.sendBufferSize] } }
      { c with ops := c.ops ++ [TransportOp.getSendBuffer c.localConf.sendBufferSize] }
      requestId content ((n + encodingOffset) % 2 ^ 32)
      { length := c.localConf.sendBufferSize, headers := none })

/-- A payload whose encoding overflows once and then fails in the encoder
itself with `BadInternalError`. -/
def failingPayloadScript : Codec :=
  { typeIdStatus := UA_STATUSCODE_GOOD
    typeIdOffset := 28
    overflowOffsets := [8192]
    payloadStatus := UA_STATUSCODE_BADINTERNALERROR
    finalOffset := 60 }

/-! ## Two concurrent calls of `UA_SecureChannel_attachSession` -/

/-- Where a thread stands in `UA_SecureChannel_attachSession`, multithreaded
build: before the allocation of line 54; with the entry allocated and filled,
before the compare-and-swap of line 59; with the session claimed, before the
insertion of line 70; returned. -/
inductive AttachPc where
  | start
  | allocated
  | claimed
  | finished
deriving DecidableEq, Repr

/-- A thread that runs `UA_SecureChannel_attachSession(channel, session)`;
`allocOk` says whether its `UA_malloc` returns an entry. -/
structure AttachThread where
  channel : Nat
  session : Nat
  allocOk : Bool
  pc : AttachPc
deriving DecidableEq, Repr

/-- The memory after the compare-and-swap of line 59 has set the back-reference
of session `s` to channel `c`. -/
def claimedWorld (w : World) (c s : Nat) : World :=
  { w with sessions := store w.sessions s { w.sessions s with channel := some c } }

/-- One atomic step of a thread in the multithreaded build: the allocation
(lines 54-57), the compare-and-swap `uatomic_cmpxchg(&session->channel, NULL,
channel)` with the return on failure (lines 59-62), or the insertion at the
head of the channel's list (line 70).  A returned thread does nothing. -/
def AttachThread.step (w : World) (t : AttachThread) : World × AttachThread :=
  match t.pc with
  | .start => (w, { t with pc := if t.allocOk then AttachPc.allocated else AttachPc.finished })
  | .allocated =>
    if (w.sessions t.session).channel = none then
      (claimedWorld w t.channel t.session, { t with pc := AttachPc.claimed })
    else (w, { t with pc := AttachPc.finished })
  | .claimed =>
    ({ w with
       channels := store w.channels t.channel
         { w.channels t.channel with
           sessions := { session := some t.session } :: (w.channels t.channel).sessions } },
      { t with pc := AttachPc.finished })
  | .finished => (w, t)

/-- Two threads and the memory they share. -/
structure Race where
  world : World
  first : AttachThread
  second : AttachThread

/-- One step of the race: the scheduler picks the first or the second thread. -/
def Race.step (r : Race) (pickFirst : Bool) : Race :=
  if pickFirst then
    { r with world := (r.first.step r.world).1, first := (r.first.step r.world).2 }
  else
    { r with world := (r.second.step r.world).1, second := (r.second.step r.world).2 }

/-- The race under a schedule, one pick per atomic step; every interleaving of
the two calls is the run of some schedule. -/
def Race.run (r : Race) : List Bool → Race
  | [] => r
  | pick :: rest => (r.step pick).run rest

/-- Two calls that attach the same session `s`, one to `c1` and one to `c2`,
both about to start. -/
def attachRace (w : World) (c1 c2 s : Nat) (ok1 ok2 : Bool) : Race :=
  { world := w
    first := { channel := c1, session := s, allocOk := ok1, pc := AttachPc.start }
    second := { channel := c2, session := s, allocOk := ok2, pc := AttachPc.start } }

/-- A thread that has not tried its compare-and-swap with success: it is before
it, or it has returned because its allocation failed. -/
def NotClaiming (allocOk : Bool) (pc : AttachPc) : Prop :=
  pc = AttachPc.start ∨ pc = AttachPc.allocated ∨ (pc = AttachPc.finished ∧ allocOk = false)

/-- What holds of every state of the race of `attachRace w c1 c2 s ok1 ok2`:
either no thread has claimed the session and the memory is `w`; or one thread
has claimed it and the other has not and never will, and the memory is `w`
with the claim, or with the whole attach once the winner has returned. -/
def RaceInv (w : World) (c1 c2 s : Nat) (ok1 ok2 : Bool) (r : Race) : Prop :=
  r.first.channel = c1 ∧ r.first.session = s ∧ r.first.allocOk = ok1 ∧
  r.second.channel = c2 ∧ r.second.session = s ∧ r.second.allocOk = ok2 ∧
  ((r.world = w ∧ NotClaiming ok1 r.first.pc ∧ NotClaiming ok2 r.second.pc) ∨
   (r.world = claimedWorld w c1 s ∧ r.first.pc = AttachPc.claimed ∧
      r.second.pc ≠ AttachPc.claimed) ∨
   (r.world = UA_SecureChannel_attachSession w c1 s true ∧ r.first.pc = AttachPc.finished ∧
      r.second.pc ≠ AttachPc.claimed) ∨
   (r.world = claimedWorld w c2 s ∧ r.second.pc = AttachPc.claimed ∧
      r.first.pc ≠ AttachPc.claimed) ∨
   (r.world = UA_SecureChannel_attachSession w c2 s true ∧ r.second.pc = AttachPc.finished ∧
      r.first.pc ≠ AttachPc.claimed))

/-! ## Lemmas on the registry -/

theorem store_same {α : Type} (mem : Nat → α) (p : Nat) (v : α) : store mem p v p = v := by
  simp [store]

theorem store_other {α : Type} (mem : Nat → α) (p q : Nat) (v : α) (h : q ≠ p) :
    store mem p v q = mem q := by
  simp [store, h]

/-- The teardown loop clears exactly the sessions that have an entry. -/
theorem clearBackReferences_apply (l : List SessionEntry) (sessions : Nat → UA_Session) (s : Nat) :
    clearBackReferences sessions l s =
      if ({ session := some s } : SessionEntry) ∈ l then { sessions s with channel := none }
      else sessions s := by
  induction l generalizing sessions with
  | nil => simp [clearBackReferences]
  | cons se rest ih =>
    rcases se with ⟨_ | t⟩
    · simp [clearBackReferences, ih]
    · simp only [clearBackReferences, ih, List.mem_cons, SessionEntry.mk.injEq, Option.some.injEq]
      by_cases hst : s = t
      · subst hst
        simp [store_same]
      · simp [hst, store_other _ _ _ _ hst]

/-- Entries for other sessions are untouched by the detach loop. -/
theorem mem_removeFirstEntry_of_ne (session : Option Nat) (e : SessionEntry)
    (h : e.session ≠ session) (l : List SessionEntry) :
    e ∈ removeFirstEntry session l ↔ e ∈ l := by
  induction l with
  | nil => simp [removeFirstEntry]
  | cons se rest ih =>
    by_cases hse : se.session = session
    · have hne : e ≠ se := fun heq => h (heq ▸ hse)
      simp [removeFirstEntry, hse, hne]
    · simp [removeFirstEntry, hse, ih]

/-- The detach loop only removes entries. -/
theorem removeFirstEntry_sublist (session : Option Nat) (l : List SessionEntry) :
    (removeFirstEntry session l).Sublist l := by
  induction l with
  | nil => simp [removeFirstEntry]
  | cons se rest ih =>
    by_cases hse : se.session = session
    · simp [removeFirstEntry, hse]
    · simp [removeFirstEntry, hse, ih]

/-- In a registry without duplicates the detach loop leaves no entry for the session. -/
theorem not_mem_removeFirstEntry (session : Option Nat) (l : List SessionEntry) (h : l.Nodup) :
    ({ session := session } : SessionEntry) ∉ removeFirstEntry session l := by
  induction l with
  | nil => simp [removeFirstEntry]
  | cons se rest ih =>
    rw [List.nodup_cons] at h
    by_cases hse : se.session = session
    · have : se = { session := session } := by cases se; simp_all
      simp only [removeFirstEntry, hse, ne_eq, not_true_eq_false, ite_false]
      exact this ▸ h.1
    · have hne : ({ session := session } : SessionEntry) ≠ se := fun heq => hse (heq ▸ rfl)
      simp [removeFirstEntry, hse, hne, ih h.2]

/-- Attaching keeps the registry consistent and free of duplicates. -/
theorem attach_preserves (w : World) (channel session : Nat) (allocOk : Bool)
    (hc : Consistent w) (hd : NoDuplicates w) :
    Consistent (UA_SecureChannel_attachSession w channel session allocOk) ∧
      NoDuplicates (UA_SecureChannel_attachSession w channel session allocOk) := by
  unfold UA_SecureChannel_attachSession
  by_cases ha : allocOk = true
  swap
  · simp [ha, hc, hd]
  by_cases hs : (w.sessions session).channel = none
  swap
  · simp [ha, hs, hc, hd]
  have hfree : ∀ c, ({ session := some session } : SessionEntry) ∉ (w.channels c).sessions := by
    intro c hmem
    have := (hc session c).mpr hmem
    simp [hs] at this
  simp only [ha, hs, Bool.not_true, Bool.false_eq_true, ite_false, ne_eq, not_true_eq_false]
  constructor
  · intro s c
    by_cases hss : s = session
    · subst hss
      by_cases hcc : c = channel
      · subst hcc
        simp [store]
      · have h1 : ¬ channel = c := fun h => hcc h.symm
        simp [store, hcc, h1, hfree c]
    · by_cases hcc : c = channel
      · subst hcc
        simp [store, hss, hc s c]
      · simp [store, hss, hcc, hc s c]
  · intro c
    by_cases hcc : c = channel
    · subst hcc
      simp [store, hfree c, hd c]
    · simp [store, hcc, hd c]

/-- An aimed detach keeps the registry consistent and free of duplicates. -/
theorem detach_preserves (w : World) (channel : Nat) (session : Option Nat)
    (ha : (RegistryCall.detach channel session).aimed w = true)
    (hc : Consistent w) (hd : NoDuplicates w) :
    Consistent (UA_SecureChannel_detachSession w channel session) ∧
      NoDuplicates (UA_SecureChannel_detachSession w channel session) := by
  unfold UA_SecureChannel_detachSession
  constructor
  swap
  · intro c
    by_cases hcc : c = channel
    · subst hcc
      simpa [store] using (removeFirstEntry_sublist session _).nodup (hd c)
    · simp [store, hcc, hd c]
  cases session with
  | none =>
    intro s c
    by_cases hcc : c = channel
    · subst hcc
      have := mem_removeFirstEntry_of_ne none { session := some s } (by simp)
        (w.channels c).sessions
      simp [store, this, hc s c]
    · simp [store, hcc, hc s c]
  | some t =>
    simp only [RegistryCall.aimed, decide_eq_true_eq] at ha
    intro s c
    by_cases hss : s = t
    · subst hss
      by_cases hcc : c = channel
      · subst hcc
        simpa [store] using not_mem_removeFirstEntry (some s) _ (hd c)
      · have hnot : ({ session := some s } : SessionEntry) ∉ (w.channels c).sessions := by
          intro hmem
          have h1 := (hc s c).mpr hmem
          rcases ha with h2 | h2
          · simp [h1] at h2
          · rw [h1] at h2
            exact hcc (Option.some.inj h2)
        simp [store, hcc, hnot]
    · by_cases hcc : c = channel
      · subst hcc
        have := mem_removeFirstEntry_of_ne (some t) { session := some s }
          (by simpa using hss) (w.channels c).sessions
        simp [store, hss, this, hc s c]
      · simp [store, hss, hcc, hc s c]

/-- Teardown keeps the registry consistent and free of duplicates. -/
theorem cleanup_preserves (w : World) (channel : Nat) (hc : Consistent w) (hd : NoDuplicates w) :
    Consistent (UA_SecureChannel_deleteMembersCleanup w channel).1 ∧
      NoDuplicates (UA_SecureChannel_deleteMembersCleanup w channel).1 := by
  unfold UA_SecureChannel_deleteMembersCleanup
  constructor
  · intro s c
    simp only [clearBackReferences_apply]
    by_cases hmem : ({ session := some s } : SessionEntry) ∈ (w.channels channel).sessions
    · have h1 := (hc s channel).mpr hmem
      by_cases hcc : c = channel
      · subst hcc
        simp [store, hmem]
      · have hnot : ({ session := some s } : SessionEntry) ∉ (w.channels c).sessions := by
          intro h2
          have h3 := (hc s c).mpr h2
          rw [h1] at h3
          exact hcc (Option.some.inj h3).symm
        simp [store, hmem, hcc, hnot]
    · by_cases hcc : c = channel
      · subst hcc
        have h1 : ¬ (w.sessions s).channel = some c := fun h => hmem ((hc s c).mp h)
        simp [store, hmem, h1]
      · simp [store, hmem, hcc, hc s c]
  · intro c
    by_cases hcc : c = channel
    · subst hcc
      simp [store]
    · simp [store, hcc, hd c]

/-- Every aimed call keeps the registry consistent and free of duplicates. -/
theorem run_preserves (w : World) (call : RegistryCall) (ha : call.aimed w = true)
    (hc : Consistent w) (hd : NoDuplicates w) :
    Consistent (call.run w) ∧ NoDuplicates (call.run w) := by
  cases call with
  | attach channel session allocOk => exact attach_preserves w channel session allocOk hc hd
  | detach channel session => exact detach_preserves w channel session ha hc hd
  | cleanup channel => exact cleanup_preserves w channel hc hd

/-- Every aimed sequence of calls keeps the registry consistent and free of duplicates. -/
theorem runCalls_preserves (calls : List RegistryCall) (w : World)
    (ha : aimedCalls w calls = true) (hc : Consistent w) (hd : NoDuplicates w) :
    Consistent (runCalls w calls) ∧ NoDuplicates (runCalls w calls) := by
  induction calls generalizing w with
  | nil => exact ⟨hc, hd⟩
  | cons call rest ih =>
    simp only [aimedCalls, Bool.and_eq_true] at ha
    have h := run_preserves w call ha.1 hc hd
    exact ih (call.run w) ha.2 h.1 h.2

/-- A fresh memory is consistent and free of duplicates. -/
theorem fresh_consistent (w : World) (h : Fresh w) : Consistent w ∧ NoDuplicates w := by
  constructor
  · intro s c
    simp [h.1 c, h.2 s]
  · intro c
    simp [h.1 c]

/-- The memory `freshWorld` is fresh. -/
theorem freshWorld_fresh : Fresh freshWorld := by
  constructor
  · intro c
    rfl
  · intro s
    rfl

/-! ## C2: the registry and the back-references -/

/-- C3: `UA_SecureChannel_revolveTokens` equals the reference rotation on every
channel state: unchanged when the pending token id is 0; otherwise the current
token is the whole pending record, the pending token is the empty record and
every other field is unchanged. -/
theorem C3_revolveTokens_eq_reference (channel : UA_SecureChannel) :
    UA_SecureChannel_revolveTokens channel = rotateReference channel := by
  unfold UA_SecureChannel_revolveTokens rotateReference
  cases h : channel.nextSecurityToken.tokenId with
  | zero => simp
  | succ n => simp [UA_ChannelSecurityToken_init]

/-! ## C4: attaching an attached session -/

/-- C4: when the back-reference of the session is already set (to this channel
or to another), `UA_SecureChannel_attachSession` changes nothing: the memory is
the same, so the registry of the channel keeps its entries and their order and
the session keeps its back-reference; the call has no error result. -/
theorem C4_attach_attached_session_is_noop (w : World) (channel session : Nat) (allocOk : Bool)
    (h : (w.sessions session).channel ≠ none) :
    UA_SecureChannel_attachSession w channel session allocOk = w ∧
    ((UA_SecureChannel_attachSession w channel session allocOk).channels channel).sessions
      = (w.channels channel).sessions ∧
    ((UA_SecureChannel_attachSession w channel session allocOk).sessions session).channel
      = (w.sessions session).channel := by
  have hw : UA_SecureChannel_attachSession w channel session allocOk = w := by
    unfold UA_SecureChannel_attachSession
    cases allocOk <;> simp [h]
  rw [hw]
  exact ⟨rfl, rfl, rfl⟩

/-- C4 at a concrete memory: session 5 is attached to channel 1 and is then
attached to channel 2. -/
theorem C4_attach_attached_session_witness :
    ((UA_SecureChannel_attachSession freshWorld 1 5 true).sessions 5).channel ≠ none ∧
    (UA_SecureChannel_attachSession (UA_SecureChannel_attachSession freshWorld 1 5 true) 2 5 true
        = UA_SecureChannel_attachSession freshWorld 1 5 true ∧
      ((UA_SecureChannel_attachSession (UA_SecureChannel_attachSession freshWorld 1 5 true)
          2 5 true).channels 2).sessions
        = ((UA_SecureChannel_attachSession freshWorld 1 5 true).channels 2).sessions ∧
      ((UA_SecureChannel_attachSession (UA_SecureChannel_attachSession freshWorld 1 5 true)
          2 5 true).sessions 5).channel
        = ((UA_SecureChannel_attachSession freshWorld 1 5 true).sessions 5).channel) :=
  ⟨by decide,
    C4_attach_attached_session_is_noop (UA_SecureChannel_attachSession freshWorld 1 5 true)
      2 5 true (by decide)⟩

/-! ## C5: teardown of the registry -/

/-- C5: after `UA_SecureChannel_deleteMembersCleanup` the registry of the
channel is empty, every session that had an entry has an absent back-reference,
the other field of every session is as before, and every session without an
entry is unchanged; no condition is put on the channel, so this covers a
channel without transport and an empty registry, where no session changes. -/
theorem C5_cleanup_empties_registry (w : World) (channel : Nat) :
    (((UA_SecureChannel_deleteMembersCleanup w channel).1).channels channel).sessions = [] ∧
    (∀ s, ({ session := some s } : SessionEntry) ∈ (w.channels channel).sessions →
      (((UA_SecureChannel_deleteMembersCleanup w channel).1).sessions s).channel = none) ∧
    (∀ s, (((UA_SecureChannel_deleteMembersCleanup w channel).1).sessions s).authenticationToken
      = (w.sessions s).authenticationToken) ∧
    (∀ s, ({ session := some s } : SessionEntry) ∉ (w.channels channel).sessions →
      ((UA_SecureChannel_deleteMembersCleanup w channel).1).sessions s = w.sessions s) ∧
    ((w.channels channel).sessions = [] →
      ((UA_SecureChannel_deleteMembersCleanup w channel).1).sessions = w.sessions) := by
  unfold UA_SecureChannel_deleteMembersCleanup
  refine ⟨by simp [store], ?_, ?_, ?_, ?_⟩
  · intro s hs
    simp [clearBackReferences_apply, hs]
  · intro s
    simp only [clearBackReferences_apply]
    split <;> rfl
  · intro s hs
    simp [clearBackReferences_apply, hs]
  · intro hnil
    simp [hnil, clearBackReferences]

/-! ## Lemmas on the send path -/

theorem countGetSendBuffer_append (a b : List TransportOp) :
    countGetSendBuffer (a ++ b) = countGetSendBuffer a + countGetSendBuffer b := by
  induction a with
  | nil => simp [countGetSendBuffer]
  | cons op rest ih =>
    cases op <;> simp [countGetSendBuffer, ih]; omega

theorem sentBuffers_append (a b : List TransportOp) :
    sentBuffers (a ++ b) = sentBuffers a ++ sentBuffers b := by
  induction a with
  | nil => simp [sentBuffers]
  | cons op rest ih =>
    cases op <;> simp [sentBuffers, ih]

/-- A chunk rejected for an exhausted budget: nothing changes. -/
theorem sendChunk_exhausted (st : SendState) (c : UA_Connection)
    (hc : st.channel.connection = some c) (hb : st.requestInfo.chunksLeft < 1) :
    UA_SecureChannel_sendChunk st = (UA_STATUSCODE_BADTCPMESSAGETOOLARGE, st) := by
  simp [UA_SecureChannel_sendChunk, hc, hb]

/-- A chunk that is not intermediate, with budget left. -/
theorem sendChunk_final (st : SendState) (c : UA_Connection)
    (hc : st.channel.connection = some c) (hb : 1 ≤ st.requestInfo.chunksLeft)
    (hct : st.requestInfo.chunkType ≠ UA_ChunkType.INTERMEDIATE) :
    UA_SecureChannel_sendChunk st =
      (UA_STATUSCODE_GOOD,
        { channel := { st.channel with
            sequenceNumber := (st.channel.sequenceNumber + 1) % 2 ^ 32
            connection := some { c with ops := c.ops ++
              [TransportOp.send (chunkBufferOf st.requestInfo.messageType st.requestInfo.chunkType
                  st.requestInfo.requestId st.channel.securityToken
                  st.channel.sequenceNumber st.offset),
                TransportOp.releaseRecvBuffer (chunkBufferOf st.requestInfo.messageType
                  st.requestInfo.chunkType st.requestInfo.requestId st.channel.securityToken st.channel.sequenceNumber st.offset)] } }
          requestInfo := { st.requestInfo with chunksLeft := st.requestInfo.chunksLeft - 1 }
          dst := chunkBufferOf st.requestInfo.messageType st.requestInfo.chunkType
                  st.requestInfo.requestId st.channel.securityToken
            st.channel.sequenceNumber st.offset
          offset := 24 }) := by
  have hb' : ¬ st.requestInfo.chunksLeft < 1 := by omega
  simp [UA_SecureChannel_sendChunk, hc, hb', hct, chunkBufferOf, encodeHeaders,
    UA_Connection.send, UA_Connection.releaseRecvBuffer]

/-- An intermediate chunk, with budget left. -/
theorem sendChunk_intermediate (st : SendState) (c : UA_Connection)
    (hc : st.channel.connection = some c) (hb : 1 ≤ st.requestInfo.chunksLeft)
    (hct : st.requestInfo.chunkType = UA_ChunkType.INTERMEDIATE) :
    UA_SecureChannel_sendChunk st =
      (c.getSendBufferStatus (countGetSendBuffer c.ops),
        { channel := { st.channel with
            sequenceNumber := (st.channel.sequenceNumber + 1) % 2 ^ 32
            connection := some { c with ops := c.ops ++
              [TransportOp.send (chunkBufferOf st.requestInfo.messageType st.requestInfo.chunkType
                  st.requestInfo.requestId st.channel.securityToken
                  st.channel.sequenceNumber st.offset),
                TransportOp.releaseRecvBuffer (chunkBufferOf st.requestInfo.messageType
                  st.requestInfo.chunkType st.requestInfo.requestId st.channel.securityToken st.channel.sequenceNumber st.offset),
                TransportOp.getSendBuffer c.localConf.sendBufferSize] } }
          requestInfo := { st.requestInfo with chunksLeft := st.requestInfo.chunksLeft - 1 }
          dst :=
            { length := c.localConf.sendBufferSize
              headers :=
                if c.getSendBufferStatus (countGetSendBuffer c.ops) = UA_STATUSCODE_GOOD then none
                else (chunkBufferOf st.requestInfo.messageType st.requestInfo.chunkType
                  st.requestInfo.requestId st.channel.securityToken
                  st.channel.sequenceNumber st.offset).headers }
          offset := 24 }) := by
  have hb' : ¬ st.requestInfo.chunksLeft < 1 := by omega
  simp only [UA_SecureChannel_sendChunk, hc, hb', hct, chunkBufferOf, encodeHeaders,
    UA_Connection.send, UA_Connection.releaseRecvBuffer, UA_Connection.getSendBuffer,
    countGetSendBuffer_append, countGetSendBuffer, ite_false, ite_true, Nat.add_zero]
  split <;> simp_all

/-- The payload encoder when the budget covers every overflow and every buffer
acquisition succeeds: every overflow sends one intermediate chunk. -/
theorem encode_all_good (ps fo : Nat) (offsets : List Nat) (st : SendState) (c : UA_Connection)
    (hc : st.channel.connection = some c)
    (hget : ∀ i, c.getSendBufferStatus i = UA_STATUSCODE_GOOD)
    (hct : st.requestInfo.chunkType = UA_ChunkType.INTERMEDIATE)
    (hb : (offsets.length : Int) ≤ st.requestInfo.chunksLeft) :
    (UA_encodeBinary ps fo offsets st).1 = ps ∧
    (UA_encodeBinary ps fo offsets st).2.offset = fo ∧
    (UA_encodeBinary ps fo offsets st).2.requestInfo =
      { st.requestInfo with chunksLeft := st.requestInfo.chunksLeft - offsets.length } ∧
    (UA_encodeBinary ps fo offsets st).2.channel =
      { st.channel with
        sequenceNumber := (sequenceAfter st.channel.sequenceNumber offsets.length)
        connection := some
          { c with
            ops := c.ops ++ intermediateOps st.requestInfo.messageType
              st.requestInfo.requestId st.channel.securityToken
              c.localConf.sendBufferSize st.channel.sequenceNumber offsets } } := by
  induction offsets generalizing st c with
  | nil =>
    refine ⟨rfl, rfl, ?_, ?_⟩
    · simp [UA_encodeBinary]
    · simp [UA_encodeBinary, intermediateOps, sequenceAfter, ← hc]
  | cons p rest ih =>
    have hlen : ((p :: rest).length : Int) = (rest.length : Int) + 1 := by simp
    rw [hlen] at hb
    have h1 := sendChunk_intermediate { st with offset := p } c hc (by simp; omega) hct
    simp only [hget] at h1
    have hih := ih _ { c with ops := c.ops ++
        [TransportOp.send (chunkBufferOf st.requestInfo.messageType st.requestInfo.chunkType
                  st.requestInfo.requestId st.channel.securityToken
            st.channel.sequenceNumber p),
          TransportOp.releaseRecvBuffer (chunkBufferOf st.requestInfo.messageType
            st.requestInfo.chunkType st.requestInfo.requestId st.channel.securityToken st.channel.sequenceNumber p),
          TransportOp.getSendBuffer c.localConf.sendBufferSize] }
      (congrArg (fun r => r.2.channel.connection) h1) hget
      (by rw [h1]; exact hct) (by rw [h1]; simp; omega)
    rw [h1] at hih
    simp only [UA_encodeBinary, h1, ne_eq, not_true_eq_false, ite_false]
    refine ⟨hih.1, hih.2.1, ?_, ?_⟩
    · rw [hih.2.2.1]
      simp only [UA_Request.mk.injEq, true_and, hlen]
      omega
    · rw [hih.2.2.2]
      simp [intermediateOps, sequenceAfter, chunkBufferOf, hct]

/-- The payload encoder when it overflows more often than the budget allows and
every buffer acquisition succeeds: the budget is used up by intermediate chunks
and the next overflow is refused. -/
theorem encode_exhausted (ps fo : Nat) (offsets : List Nat) (st : SendState) (c : UA_Connection)
    (n : Nat) (hc : st.channel.connection = some c)
    (hget : ∀ i, c.getSendBufferStatus i = UA_STATUSCODE_GOOD)
    (hct : st.requestInfo.chunkType = UA_ChunkType.INTERMEDIATE)
    (hn : st.requestInfo.chunksLeft = (n : Int)) (hlen : n < offsets.length) :
    (UA_encodeBinary ps fo offsets st).1 = UA_STATUSCODE_BADTCPMESSAGETOOLARGE ∧
    (UA_encodeBinary ps fo offsets st).2.requestInfo = { st.requestInfo with chunksLeft := 0 } ∧
    (UA_encodeBinary ps fo offsets st).2.channel =
      { st.channel with
        sequenceNumber := (sequenceAfter st.channel.sequenceNumber n)
        connection := some
          { c with
            ops := c.ops ++ intermediateOps st.requestInfo.messageType
              st.requestInfo.requestId st.channel.securityToken
              c.localConf.sendBufferSize st.channel.sequenceNumber (offsets.take n) } } := by
  induction offsets generalizing st c n with
  | nil => simp at hlen
  | cons p rest ih =>
    cases n with
    | zero =>
      have h1 := sendChunk_exhausted { st with offset := p } c hc (by simp [hn])
      have hne : UA_STATUSCODE_BADTCPMESSAGETOOLARGE ≠ UA_STATUSCODE_GOOD := by decide
      simp only [UA_encodeBinary, h1, ne_eq, hne, not_false_eq_true, ite_true]
      refine ⟨trivial, ?_, ?_⟩
      · have h0 : st.requestInfo.chunksLeft = 0 := by simpa using hn
        rw [← h0]
      · simp [intermediateOps, sequenceAfter, ← hc]
    | succ m =>
      have h1 := sendChunk_intermediate { st with offset := p } c hc (by simp [hn]) hct
      simp only [hget] at h1
      have hih := ih _ { c with ops := c.ops ++
          [TransportOp.send (chunkBufferOf st.requestInfo.messageType st.requestInfo.chunkType
              st.requestInfo.requestId st.channel.securityToken st.channel.sequenceNumber p),
            TransportOp.releaseRecvBuffer (chunkBufferOf st.requestInfo.messageType
              st.requestInfo.chunkType st.requestInfo.requestId st.channel.securityToken
              st.channel.sequenceNumber p),
            TransportOp.getSendBuffer c.localConf.sendBufferSize] } m
        (congrArg (fun r => r.2.channel.connection) h1) hget
        (by rw [h1]; exact hct) (by rw [h1]; simp [hn]) (by simpa using hlen)
      rw [h1] at hih
      simp only [UA_encodeBinary, h1, ne_eq, not_true_eq_false, ite_false]
      refine ⟨hih.1, ?_, ?_⟩
      · rw [hih.2.1]
      · rw [hih.2.2]
        simp [intermediateOps, sequenceAfter, chunkBufferOf, hct]

/-- Whatever happens in `UA_SecureChannel_sendChunk` on a bound channel, the
transport stays bound, its trace only grows, the request state keeps its
message kind, chunk kind and request id, and every buffer sent carries the tag
of the request state. -/
theorem sendChunk_tags (st : SendState) (c : UA_Connection)
    (hc : st.channel.connection = some c) :
    (UA_SecureChannel_sendChunk st).2.requestInfo.messageType = st.requestInfo.messageType ∧
    (UA_SecureChannel_sendChunk st).2.requestInfo.chunkType = st.requestInfo.chunkType ∧
    ∃ c1 new, (UA_SecureChannel_sendChunk st).2.channel.connection = some c1 ∧
      c1.ops = c.ops ++ new ∧
      ∀ b ∈ sentBuffers new,
        b.tag = some (st.requestInfo.messageType.toNat + st.requestInfo.chunkType.toNat) := by
  by_cases hb : st.requestInfo.chunksLeft < 1
  · rw [sendChunk_exhausted st c hc hb]
    exact ⟨rfl, rfl, c, [], hc, by simp, by simp [sentBuffers]⟩
  · have hb1 : 1 ≤ st.requestInfo.chunksLeft := by omega
    by_cases hct : st.requestInfo.chunkType = UA_ChunkType.INTERMEDIATE
    · rw [sendChunk_intermediate st c hc hb1 hct]
      refine ⟨rfl, rfl, _, _, rfl, rfl, ?_⟩
      simp [sentBuffers, Buffer.tag, chunkBufferOf]
    · rw [sendChunk_final st c hc hb1 hct]
      refine ⟨rfl, rfl, _, _, rfl, rfl, ?_⟩
      simp [sentBuffers, Buffer.tag, chunkBufferOf]

/-- Whatever happens in the payload encoder on a bound channel, the transport
stays bound, its trace only grows, the request state keeps its message kind and
chunk kind, and every buffer sent carries the tag of the request state. -/
theorem encode_tags (ps fo : Nat) (offsets : List Nat) (st : SendState) (c : UA_Connection)
    (hc : st.channel.connection = some c) :
    (UA_encodeBinary ps fo offsets st).2.requestInfo.messageType = st.requestInfo.messageType ∧
    (UA_encodeBinary ps fo offsets st).2.requestInfo.chunkType = st.requestInfo.chunkType ∧
    ∃ c1 new, (UA_encodeBinary ps fo offsets st).2.channel.connection = some c1 ∧
      c1.ops = c.ops ++ new ∧
      ∀ b ∈ sentBuffers new,
        b.tag = some (st.requestInfo.messageType.toNat + st.requestInfo.chunkType.toNat) := by
  induction offsets generalizing st c with
  | nil => exact ⟨rfl, rfl, c, [], hc, by simp, by simp [sentBuffers]⟩
  | cons p rest ih =>
    obtain ⟨hm, hk, c1, new1, hc1, hops1, htag1⟩ := sendChunk_tags { st with offset := p } c hc
    simp only [UA_encodeBinary]
    split
    · exact ⟨hm, hk, c1, new1, hc1, hops1, htag1⟩
    · obtain ⟨hm2, hk2, c2, new2, hc2, hops2, htag2⟩ := ih _ c1 hc1
      refine ⟨hm2.trans hm, hk2.trans hk, c2, new1 ++ new2, hc2, ?_, ?_⟩
      · rw [hops2, hops1, List.append_assoc]
      · intro b hbmem
        rw [sentBuffers_append, List.mem_append] at hbmem
        rcases hbmem with h | h
        · exact htag1 b h
        · rw [htag2 b h, hm, hk]

/-- Whatever happens in lines 173-197 on a bound channel, the transport stays
bound, its trace only grows, and every buffer sent is tagged with the message
kind chosen from `numeric` and with the chunk kind INTERMEDIATE or FINAL. -/
theorem body_tags (channel : UA_SecureChannel) (c : UA_Connection) (requestId : Nat)
    (content : Codec) (numeric : Nat) (message : Buffer) (hc : channel.connection = some c) :
    ∃ c2 new,
      (sendBinaryMessageBody channel c requestId content numeric message).2.channel.connection
        = some c2 ∧
      c2.ops = c.ops ++ new ∧
      ∀ b ∈ sentBuffers new, ∃ chunkKind,
        (chunkKind = UA_ChunkType.INTERMEDIATE ∨ chunkKind = UA_ChunkType.FINAL) ∧
        b.tag = some ((messageTypeOf numeric).toNat + chunkKind.toNat) := by
  obtain ⟨hm, _, c1, new1, hc1, hops1, htag1⟩ :=
    encode_tags content.payloadStatus content.finalOffset content.overflowOffsets
      (stateAfterTypeId channel c requestId content numeric message) c hc
  obtain ⟨_, _, c2, new2, hc2, hops2, htag2⟩ :=
    sendChunk_tags (switchToFinal (UA_encodeBinary content.payloadStatus content.finalOffset
      content.overflowOffsets (stateAfterTypeId channel c requestId content numeric message)).2)
      c1 hc1
  refine ⟨c2, new1 ++ new2, hc2, by rw [hops2, hops1, List.append_assoc], ?_⟩
  intro b hbmem
  rw [sentBuffers_append, List.mem_append] at hbmem
  rcases hbmem with h | h
  · exact ⟨UA_ChunkType.INTERMEDIATE, Or.inl rfl, htag1 b h⟩
  · refine ⟨UA_ChunkType.FINAL, Or.inr rfl, ?_⟩
    rw [htag2 b h]
    simp only [switchToFinal, hm]
    rfl

theorem sequenceAfter_mod (k seq : Nat) :
    sequenceAfter seq k % 2 ^ 32 = (seq + k) % 2 ^ 32 := by
  induction k generalizing seq with
  | zero => simp [sequenceAfter]
  | succ k ih =>
    rw [sequenceAfter, ih]
    norm_num
    omega

theorem sequenceAfter_succ_mod (k seq : Nat) :
    (sequenceAfter seq k + 1) % 2 ^ 32 = (seq + k + 1) % 2 ^ 32 := by
  have h := sequenceAfter_mod k seq
  norm_num at h ⊢
  omega

/-- The tags of a run of intermediate chunks. -/
theorem intermediateOps_tags (messageType : UA_MessageType) (requestId : Nat)
    (token : UA_ChannelSecurityToken) (sendBufferSize : Nat) (offsets : List Nat) (seq : Nat) :
    (sentBuffers (intermediateOps messageType requestId token sendBufferSize seq offsets)).map
        Buffer.tag
      = List.replicate offsets.length
          (some (messageType.toNat + UA_ChunkType.INTERMEDIATE.toNat)) := by
  induction offsets generalizing seq with
  | nil => simp [intermediateOps, sentBuffers]
  | cons p rest ih =>
    simp [intermediateOps, sentBuffers, ih, List.replicate_succ, Buffer.tag, chunkBufferOf]

/-- The sequence numbers of a run of intermediate chunks. -/
theorem intermediateOps_sequenceNumbers (messageType : UA_MessageType) (requestId : Nat)
    (token : UA_ChannelSecurityToken) (sendBufferSize : Nat) (offsets : List Nat) (seq : Nat) :
    (sentBuffers (intermediateOps messageType requestId token sendBufferSize seq offsets)).map
        Buffer.sequenceNumber
      = (List.range offsets.length).map (fun i => some ((seq + i + 1) % 2 ^ 32)) := by
  induction offsets generalizing seq with
  | nil => simp [intermediateOps, sentBuffers]
  | cons p rest ih =>
    simp only [intermediateOps, sentBuffers, List.map_cons, ih, List.length_cons,
      List.range_succ_eq_map, List.map_map]
    refine congrArg₂ _ (by simp [Buffer.sequenceNumber, chunkBufferOf]) ?_
    apply List.map_congr_left
    intro i _
    simp only [Function.comp, Option.some.injEq]
    norm_num
    omega

/-- The declared lengths of a run of intermediate chunks. -/
theorem intermediateOps_lengths (messageType : UA_MessageType) (requestId : Nat)
    (token : UA_ChannelSecurityToken) (sendBufferSize : Nat) (offsets : List Nat) (seq : Nat)
    (bound : Nat) (h : ∀ p ∈ offsets, p ≤ bound) :
    ∀ b ∈ sentBuffers (intermediateOps messageType requestId token sendBufferSize seq offsets),
      b.length ≤ bound := by
  induction offsets generalizing seq with
  | nil => simp [intermediateOps, sentBuffers]
  | cons p rest ih =>
    intro b hb
    simp only [intermediateOps, sentBuffers, List.mem_cons] at hb
    rcases hb with hb | hb
    · subst hb
      exact le_trans (Nat.mod_le _ _) (h p (List.mem_cons_self _ _))
    · exact ih _ (fun q hq => h q (List.mem_cons_of_mem _ hq)) b hb

/-- The number of chunks of a run of intermediate chunks. -/
theorem intermediateOps_count (messageType : UA_MessageType) (requestId : Nat)
    (token : UA_ChannelSecurityToken) (sendBufferSize : Nat) (offsets : List Nat) (seq : Nat) :
    (sentBuffers (intermediateOps messageType requestId token sendBufferSize seq offsets)).length
      = offsets.length := by
  induction offsets generalizing seq with
  | nil => simp [intermediateOps, sentBuffers]
  | cons p rest ih => simp [intermediateOps, sentBuffers, ih]

/-- Lines 173-197 when the budget covers every overflow and the final chunk,
and every buffer acquisition succeeds. -/
theorem body_all_good (channel : UA_SecureChannel) (c : UA_Connection) (requestId : Nat)
    (content : Codec) (numeric : Nat) (message : Buffer)
    (hc : channel.connection = some c)
    (hget : ∀ i, c.getSendBufferStatus i = UA_STATUSCODE_GOOD)
    (hk : content.overflowOffsets.length < c.localConf.maxChunkCount) :
    (sendBinaryMessageBody channel c requestId content numeric message).1
      = content.typeIdStatus ||| content.payloadStatus ∧
    (sendBinaryMessageBody channel c requestId content numeric message).2.requestInfo.chunksLeft
      = (c.localConf.maxChunkCount : Int) - content.overflowOffsets.length - 1 ∧
    (sendBinaryMessageBody channel c requestId content numeric message).2.channel.sequenceNumber
      = (sequenceAfter channel.sequenceNumber content.overflowOffsets.length + 1) % 2 ^ 32 ∧
    channelOps (sendBinaryMessageBody channel c requestId content numeric message).2.channel
      = c.ops ++
        (intermediateOps (messageTypeOf numeric) requestId channel.securityToken
            c.localConf.sendBufferSize channel.sequenceNumber content.overflowOffsets ++
          [TransportOp.send (chunkBufferOf (messageTypeOf numeric) UA_ChunkType.FINAL requestId
              channel.securityToken
              (sequenceAfter channel.sequenceNumber content.overflowOffsets.length)
              content.finalOffset),
            TransportOp.releaseRecvBuffer (chunkBufferOf (messageTypeOf numeric)
              UA_ChunkType.FINAL requestId channel.securityToken
              (sequenceAfter channel.sequenceNumber content.overflowOffsets.length)
              content.finalOffset)]) := by
  obtain ⟨h1, h2, h3, h4⟩ :=
    encode_all_good content.payloadStatus content.finalOffset content.overflowOffsets
      (stateAfterTypeId channel c requestId content numeric message) c hc hget rfl
      (by simp only [stateAfterTypeId]; omega)
  simp only [sendBinaryMessageBody]
  generalize UA_encodeBinary content.payloadStatus content.finalOffset content.overflowOffsets
    (stateAfterTypeId channel c requestId content numeric message) = r at h1 h2 h3 h4 ⊢
  simp only [stateAfterTypeId] at h3 h4
  have hfin := sendChunk_final (switchToFinal r.2)
    { c with
      ops := c.ops ++ intermediateOps (messageTypeOf numeric) requestId channel.securityToken
        c.localConf.sendBufferSize channel.sequenceNumber content.overflowOffsets }
    (by simp only [switchToFinal, h4])
    (by simp only [switchToFinal, h3]; omega)
    (by simp [switchToFinal])
  rw [hfin]
  simp only [switchToFinal, h1, h2, h3, h4, channelOps, List.append_assoc]
  refine ⟨?_, trivial, trivial, trivial⟩
  simp [UA_STATUSCODE_GOOD]

/-- Lines 173-197 when the payload overflows at least as often as the budget
allows and every buffer acquisition succeeds: the budget is used up by
intermediate chunks and the final chunk is refused. -/
theorem body_exhausted (channel : UA_SecureChannel) (c : UA_Connection) (requestId : Nat)
    (content : Codec) (numeric : Nat) (message : Buffer)
    (hc : channel.connection = some c)
    (hget : ∀ i, c.getSendBufferStatus i = UA_STATUSCODE_GOOD)
    (hps : content.payloadStatus = UA_STATUSCODE_GOOD)
    (hk : c.localConf.maxChunkCount ≤ content.overflowOffsets.length) :
    (sendBinaryMessageBody channel c requestId content numeric message).1
      = content.typeIdStatus ||| UA_STATUSCODE_BADTCPMESSAGETOOLARGE ∧
    (sendBinaryMessageBody channel c requestId content numeric message).2.requestInfo.chunksLeft
      = 0 ∧
    channelOps (sendBinaryMessageBody channel c requestId content numeric message).2.channel
      = c.ops ++
        intermediateOps (messageTypeOf numeric) requestId channel.securityToken
          c.localConf.sendBufferSize channel.sequenceNumber
          (content.overflowOffsets.take c.localConf.maxChunkCount) := by
  rcases Nat.lt_or_ge c.localConf.maxChunkCount content.overflowOffsets.length with hlt | hge
  · obtain ⟨h1, h3, h4⟩ :=
      encode_exhausted content.payloadStatus content.finalOffset content.overflowOffsets
        (stateAfterTypeId channel c requestId content numeric message) c
        c.localConf.maxChunkCount hc hget rfl rfl hlt
    simp only [sendBinaryMessageBody]
    generalize UA_encodeBinary content.payloadStatus content.finalOffset content.overflowOffsets
      (stateAfterTypeId channel c requestId content numeric message) = r at h1 h3 h4 ⊢
    simp only [stateAfterTypeId] at h3 h4
    have hfin := sendChunk_exhausted (switchToFinal r.2)
      { c with
        ops := c.ops ++ intermediateOps (messageTypeOf numeric) requestId channel.securityToken
          c.localConf.sendBufferSize channel.sequenceNumber
          (content.overflowOffsets.take c.localConf.maxChunkCount) }
      (by simp only [switchToFinal, h4])
      (by simp only [switchToFinal, h3]; decide)
    rw [hfin]
    simp only [switchToFinal, h1, h3, h4, channelOps]
    refine ⟨?_, trivial, trivial⟩
    simp [UA_STATUSCODE_GOOD, Nat.lor_assoc]
  · have hkeq : content.overflowOffsets.length = c.localConf.maxChunkCount := by omega
    obtain ⟨h1, _, h3, h4⟩ :=
      encode_all_good content.payloadStatus content.finalOffset content.overflowOffsets
        (stateAfterTypeId channel c requestId content numeric message) c hc hget rfl
        (by simp only [stateAfterTypeId]; omega)
    simp only [sendBinaryMessageBody]
    generalize UA_encodeBinary content.payloadStatus content.finalOffset content.overflowOffsets
      (stateAfterTypeId channel c requestId content numeric message) = r at h1 h3 h4 ⊢
    simp only [stateAfterTypeId] at h3 h4
    have hfin := sendChunk_exhausted (switchToFinal r.2)
      { c with
        ops := c.ops ++ intermediateOps (messageTypeOf numeric) requestId channel.securityToken
          c.localConf.sendBufferSize channel.sequenceNumber content.overflowOffsets }
      (by simp only [switchToFinal, h4])
      (by simp only [switchToFinal, h3]; omega)
    rw [hfin]
    simp only [switchToFinal, h1, h3, h4, channelOps, hps, ← hkeq, List.take_length]
    refine ⟨?_, ?_, trivial⟩
    · simp [UA_STATUSCODE_GOOD]
    · omega

/-- Function `UA_SecureChannel_sendBinaryMessage` on a bound channel and a numeric type
identifier, when the initial buffer is acquired: the call is lines 173-197 run
on the channel whose transport has served that acquisition. -/
theorem sendBinaryMessage_acquired (encodingOffset : Nat) (channel : UA_SecureChannel)
    (c : UA_Connection) (requestId : Nat) (content : Codec) (namespaceIndex n : Nat)
    (hc : channel.connection = some c)
    (h0 : c.getSendBufferStatus (countGetSendBuffer c.ops) = UA_STATUSCODE_GOOD) :
    UA_SecureChannel_sendBinaryMessage encodingOffset channel requestId content
        { typeId := { namespaceIndex := namespaceIndex
                      identifier := UA_NodeIdIdentifier.numeric n } }
      = { status := (sendBinaryMessageBody
            { channel with
              connection := some
                { c with ops := c.ops ++ [TransportOp.getSendBuffer c.localConf.sendBufferSize] } }
            { c with ops := c.ops ++ [TransportOp.getSendBuffer c.localConf.sendBufferSize] }
            requestId content ((n + encodingOffset) % 2 ^ 32)
            { length := c.localConf.sendBufferSize, headers := none }).1
          channel := (sendBinaryMessageBody
            { channel with
              connection := some
                { c with ops := c.ops ++ [TransportOp.getSendBuffer c.localConf.sendBufferSize] } }
            { c with ops := c.ops ++ [TransportOp.getSendBuffer c.localConf.sendBufferSize] }
            requestId content ((n + encodingOffset) % 2 ^ 32)
            { length := c.localConf.sendBufferSize, headers := none }).2.channel
          requestInfo := some (sendBinaryMessageBody
            { channel with
              connection := some
                { c with ops := c.ops ++ [TransportOp.getSendBuffer c.localConf.sendBufferSize] } }
            { c with ops := c.ops ++ [TransportOp.getSendBuffer c.localConf.sendBufferSize] }
            requestId content ((n + encodingOffset) % 2 ^ 32)
            { length := c.localConf.sendBufferSize, headers := none }).2.requestInfo } := by
  simp [UA_SecureChannel_sendBinaryMessage, hc, UA_Connection.getSendBuffer, h0]

/-! ## C1: the message kind of the chunks -/

/-- C1, as stated, fails: with binary-encoding offset 2, a payload whose type
descriptor has the un-adjusted identifier 446 is sent in a chunk tagged
MESSAGE (not OPEN), and one with identifier 452 in a chunk tagged MESSAGE (not
CLOSE), while identifier 444, which is none of 446, 449, 452, 455, is tagged
OPEN (not MESSAGE). -/
theorem C1_unadjusted_446_is_tagged_message :
    (sentBuffers (channelOps (UA_SecureChannel_sendBinaryMessage 2
        (boundChannel (goodTransport 8192 4) 0) 1001 (payloadScript [] 100)
        (numericType 446)).channel)).map Buffer.tag
      = [some (UA_MessageType.MSG.toNat + UA_ChunkType.FINAL.toNat)] ∧
    (sentBuffers (channelOps (UA_SecureChannel_sendBinaryMessage 2
        (boundChannel (goodTransport 8192 4) 0) 1001 (payloadScript [] 100)
        (numericType 452)).channel)).map Buffer.tag
      = [some (UA_MessageType.MSG.toNat + UA_ChunkType.FINAL.toNat)] ∧
    (sentBuffers (channelOps (UA_SecureChannel_sendBinaryMessage 2
        (boundChannel (goodTransport 8192 4) 0) 1001 (payloadScript [] 100)
        (numericType 444)).channel)).map Buffer.tag
      = [some (UA_MessageType.OPN.toNat + UA_ChunkType.FINAL.toNat)] ∧
    UA_MessageType.MSG.toNat + UA_ChunkType.FINAL.toNat
      ≠ UA_MessageType.OPN.toNat + UA_ChunkType.FINAL.toNat ∧
    UA_MessageType.MSG.toNat + UA_ChunkType.FINAL.toNat
      ≠ UA_MessageType.CLO.toNat + UA_ChunkType.FINAL.toNat := by
  decide

/-- C1, amended: for every numeric type identifier `n` and binary-encoding
offset, every chunk that `UA_SecureChannel_sendBinaryMessage` hands to the
transport is tagged with the message kind chosen from the adjusted identifier
`(n + offset) mod 2^32`: OPEN when that is 446 or 449, CLOSE when it is 452 or
455, MESSAGE otherwise (together with the chunk kind INTERMEDIATE or FINAL). -/
theorem C1_message_kind_from_adjusted_identifier (encodingOffset : Nat)
    (channel : UA_SecureChannel) (requestId : Nat) (content : Codec) (namespaceIndex n : Nat) :
    ∃ new,
      channelOps (UA_SecureChannel_sendBinaryMessage encodingOffset channel requestId content
        { typeId := { namespaceIndex := namespaceIndex
                      identifier := UA_NodeIdIdentifier.numeric n } }).channel
        = channelOps channel ++ new ∧
      ∀ b ∈ sentBuffers new, ∃ chunkKind,
        (chunkKind = UA_ChunkType.INTERMEDIATE ∨ chunkKind = UA_ChunkType.FINAL) ∧
        b.tag = some
          ((if (n + encodingOffset) % 2 ^ 32 = 446 ∨ (n + encodingOffset) % 2 ^ 32 = 449 then
              UA_MessageType.OPN
            else if (n + encodingOffset) % 2 ^ 32 = 452 ∨ (n + encodingOffset) % 2 ^ 32 = 455 then
              UA_MessageType.CLO
            else UA_MessageType.MSG).toNat + chunkKind.toNat) := by
  unfold UA_SecureChannel_sendBinaryMessage
  cases hc : channel.connection with
  | none => exact ⟨[], by simp [channelOps, hc], by simp [sentBuffers]⟩
  | some c =>
    simp only []
    split
    · refine ⟨[TransportOp.getSendBuffer c.localConf.sendBufferSize], ?_, by simp [sentBuffers]⟩
      simp [channelOps, hc, UA_Connection.getSendBuffer]
    · obtain ⟨c2, new, hc2, hops2, htag⟩ :=
        body_tags
          { channel with
            connection := some
              (c.getSendBuffer c.localConf.sendBufferSize { length := 0, headers := none }).2.1 }
          (c.getSendBuffer c.localConf.sendBufferSize { length := 0, headers := none }).2.1
          requestId content ((n + encodingOffset) % 2 ^ 32)
          (c.getSendBuffer c.localConf.sendBufferSize { length := 0, headers := none }).2.2 rfl
      refine ⟨TransportOp.getSendBuffer c.localConf.sendBufferSize :: new, ?_, ?_⟩
      · simp only [channelOps, hc, hc2, hops2]
        simp [UA_Connection.getSendBuffer]
      · intro b hbmem
        simp only [sentBuffers] at hbmem
        exact htag b hbmem

/-! ## C6: the chunks of a message that fits the budget -/

/-- C6, as stated, fails at the wrap of the 32-bit counter: with the channel's
sequence number at 4294967295 before the call and a payload that overflows
once, the two chunks carry the sequence numbers 0 and 1, not 4294967296 and
4294967297. -/
theorem C6_sequence_numbers_wrap :
    (sentBuffers (channelOps (UA_SecureChannel_sendBinaryMessage 2
        (boundChannel (goodTransport 8192 4) 4294967295) 1001 (payloadScript [8192] 100)
        (numericType 631)).channel)).map Buffer.sequenceNumber
      = [some 0, some 1] ∧
    (UA_SecureChannel_sendBinaryMessage 2
        (boundChannel (goodTransport 8192 4) 4294967295) 1001 (payloadScript [8192] 100)
        (numericType 631)).status = UA_STATUSCODE_GOOD ∧
    [some 0, some 1] ≠ [some (4294967295 + 1), some (4294967295 + 2)] := by
  decide

/-- C6, amended: when the payload encoder overflows `k` times with
`k < maxChunkCount` and every buffer acquisition succeeds, the call returns the
combination of the two encoder statuses (`GOOD` for a successful call) and the
transport receives exactly `k + 1` chunks: `k` tagged INTERMEDIATE then one
tagged FINAL, with sequence numbers `(pre + 1) mod 2^32, ..., (pre + k + 1) mod
2^32`, each of declared size at most `sendBufferSize` when the encoder never
advances the offset past the buffer length. -/
theorem C6_chunk_sequence (encodingOffset : Nat) (channel : UA_SecureChannel)
    (c : UA_Connection) (requestId : Nat) (content : Codec) (namespaceIndex n : Nat)
    (hc : channel.connection = some c)
    (hget : ∀ i, c.getSendBufferStatus i = UA_STATUSCODE_GOOD)
    (hk : content.overflowOffsets.length < c.localConf.maxChunkCount)
    (hoffs : ∀ p ∈ content.overflowOffsets, p ≤ c.localConf.sendBufferSize)
    (hfin : content.finalOffset ≤ c.localConf.sendBufferSize) :
    (UA_SecureChannel_sendBinaryMessage encodingOffset channel requestId content
        { typeId := { namespaceIndex := namespaceIndex
                      identifier := UA_NodeIdIdentifier.numeric n } }).status
      = content.typeIdStatus ||| content.payloadStatus ∧
    ∃ new,
      channelOps (UA_SecureChannel_sendBinaryMessage encodingOffset channel requestId content
        { typeId := { namespaceIndex := namespaceIndex
                      identifier := UA_NodeIdIdentifier.numeric n } }).channel
        = c.ops ++ new ∧
      (sentBuffers new).length = content.overflowOffsets.length + 1 ∧
      (sentBuffers new).map Buffer.tag
        = List.replicate content.overflowOffsets.length
            (some ((messageTypeOf ((n + encodingOffset) % 2 ^ 32)).toNat
              + UA_ChunkType.INTERMEDIATE.toNat))
          ++ [some ((messageTypeOf ((n + encodingOffset) % 2 ^ 32)).toNat
              + UA_ChunkType.FINAL.toNat)] ∧
      (sentBuffers new).map Buffer.sequenceNumber
        = (List.range (content.overflowOffsets.length + 1)).map
            (fun i => some ((channel.sequenceNumber + i + 1) % 2 ^ 32)) ∧
      ∀ b ∈ sentBuffers new, b.length ≤ c.localConf.sendBufferSize := by
  rw [sendBinaryMessage_acquired encodingOffset channel c requestId content namespaceIndex n hc
    (hget _)]
  obtain ⟨h1, _, _, h4⟩ := body_all_good
    { channel with
      connection := some
        { c with ops := c.ops ++ [TransportOp.getSendBuffer c.localConf.sendBufferSize] } }
    { c with ops := c.ops ++ [TransportOp.getSendBuffer c.localConf.sendBufferSize] }
    requestId content ((n + encodingOffset) % 2 ^ 32)
    { length := c.localConf.sendBufferSize, headers := none } rfl hget hk
  refine ⟨h1,
    TransportOp.getSendBuffer c.localConf.sendBufferSize ::
      (intermediateOps (messageTypeOf ((n + encodingOffset) % 2 ^ 32)) requestId
          channel.securityToken c.localConf.sendBufferSize channel.sequenceNumber
          content.overflowOffsets ++
        [TransportOp.send (chunkBufferOf (messageTypeOf ((n + encodingOffset) % 2 ^ 32))
            UA_ChunkType.FINAL requestId channel.securityToken
            (sequenceAfter channel.sequenceNumber content.overflowOffsets.length)
            content.finalOffset),
          TransportOp.releaseRecvBuffer (chunkBufferOf
            (messageTypeOf ((n + encodingOffset) % 2 ^ 32)) UA_ChunkType.FINAL requestId
            channel.securityToken
            (sequenceAfter channel.sequenceNumber content.overflowOffsets.length)
            content.finalOffset)]),
    ?_, ?_, ?_, ?_, ?_⟩
  · simp only [h4, List.append_assoc]
    simp
  · simp [sentBuffers, sentBuffers_append, intermediateOps_count]
  · simp [sentBuffers, sentBuffers_append, intermediateOps_tags, Buffer.tag, chunkBufferOf]
  · simp only [sentBuffers, sentBuffers_append, List.map_append, intermediateOps_sequenceNumbers,
      List.range_succ, List.singleton_append, List.map_cons, List.map_nil]
    simp only [Buffer.sequenceNumber, chunkBufferOf, Option.map_some', sequenceAfter_succ_mod]
  · intro b hb
    simp only [sentBuffers, sentBuffers_append, List.mem_append, List.mem_singleton] at hb
    rcases hb with hb | hb
    · exact intermediateOps_lengths _ _ _ _ _ _ _ hoffs b hb
    · subst hb
      exact le_trans (Nat.mod_le _ _) hfin

/-- C6, amended, at a payload that overflows twice (three chunks) with the
counter just before its wrap. -/
theorem C6_chunk_sequence_witness :
    (boundChannel (goodTransport 8192 4) 4294967294).connection
      = some (goodTransport 8192 4) ∧
    (∀ i, (goodTransport 8192 4).getSendBufferStatus i = UA_STATUSCODE_GOOD) ∧
    (payloadScript [8192, 8192] 100).overflowOffsets.length
      < (goodTransport 8192 4).localConf.maxChunkCount ∧
    (∀ p ∈ (payloadScript [8192, 8192] 100).overflowOffsets,
      p ≤ (goodTransport 8192 4).localConf.sendBufferSize) ∧
    (payloadScript [8192, 8192] 100).finalOffset
      ≤ (goodTransport 8192 4).localConf.sendBufferSize ∧
    ((UA_SecureChannel_sendBinaryMessage 2 (boundChannel (goodTransport 8192 4) 4294967294)
        1001 (payloadScript [8192, 8192] 100)
        { typeId := { namespaceIndex := 0
                      identifier := UA_NodeIdIdentifier.numeric 631 } }).status
      = (payloadScript [8192, 8192] 100).typeIdStatus
        ||| (payloadScript [8192, 8192] 100).payloadStatus ∧
    ∃ new,
      channelOps (UA_SecureChannel_sendBinaryMessage 2
        (boundChannel (goodTransport 8192 4) 4294967294) 1001 (payloadScript [8192, 8192] 100)
        { typeId := { namespaceIndex := 0
                      identifier := UA_NodeIdIdentifier.numeric 631 } }).channel
        = (goodTransport 8192 4).ops ++ new ∧
      (sentBuffers new).length = (payloadScript [8192, 8192] 100).overflowOffsets.length + 1 ∧
      (sentBuffers new).map Buffer.tag
        = List.replicate (payloadScript [8192, 8192] 100).overflowOffsets.length
            (some ((messageTypeOf ((631 + 2) % 2 ^ 32)).toNat
              + UA_ChunkType.INTERMEDIATE.toNat))
          ++ [some ((messageTypeOf ((631 + 2) % 2 ^ 32)).toNat
              + UA_ChunkType.FINAL.toNat)] ∧
      (sentBuffers new).map Buffer.sequenceNumber
        = (List.range ((payloadScript [8192, 8192] 100).overflowOffsets.length + 1)).map
            (fun i => some
              (((boundChannel (goodTransport 8192 4) 4294967294).sequenceNumber + i + 1)
                % 2 ^ 32)) ∧
      ∀ b ∈ sentBuffers new, b.length ≤ (goodTransport 8192 4).localConf.sendBufferSize) :=
  ⟨rfl, fun _ => rfl, by decide, by decide, by decide,
    C6_chunk_sequence 2 (boundChannel (goodTransport 8192 4) 4294967294) (goodTransport 8192 4)
      1001 (payloadScript [8192, 8192] 100) 0 631 rfl (fun _ => rfl) (by decide) (by decide)
      (by decide)⟩

/-! ## The chunk budget along a send -/

/-- Whatever happens in `UA_SecureChannel_sendChunk` on a bound channel with a
budget that is not negative, the budget stays not negative and goes down by
exactly the number of chunks handed to the transport. -/
theorem sendChunk_budget (st : SendState) (c : UA_Connection)
    (hc : st.channel.connection = some c) (h0 : 0 ≤ st.requestInfo.chunksLeft) :
    ∃ c1 more, (UA_SecureChannel_sendChunk st).2.channel.connection = some c1 ∧
      c1.ops = c.ops ++ more ∧
      0 ≤ (UA_SecureChannel_sendChunk st).2.requestInfo.chunksLeft ∧
      ((sentBuffers more).length : Int) + (UA_SecureChannel_sendChunk st).2.requestInfo.chunksLeft
        = st.requestInfo.chunksLeft := by
  by_cases hb : st.requestInfo.chunksLeft < 1
  · rw [sendChunk_exhausted st c hc hb]
    exact ⟨c, [], hc, by simp, h0, by simp [sentBuffers]⟩
  · have hb1 : 1 ≤ st.requestInfo.chunksLeft := by omega
    by_cases hct : st.requestInfo.chunkType = UA_ChunkType.INTERMEDIATE
    · rw [sendChunk_intermediate st c hc hb1 hct]
      refine ⟨_, _, rfl, rfl, ?_, ?_⟩
      · simp only; omega
      · simp only [sentBuffers, List.length_cons, List.length_nil]; omega
    · rw [sendChunk_final st c hc hb1 hct]
      refine ⟨_, _, rfl, rfl, ?_, ?_⟩
      · simp only; omega
      · simp only [sentBuffers, List.length_cons, List.length_nil]; omega

/-- Whatever happens in the payload encoder on a bound channel with a budget
that is not negative, the budget stays not negative and goes down by exactly
the number of chunks handed to the transport. -/
theorem encode_budget (ps fo : Nat) (offsets : List Nat) (st : SendState) (c : UA_Connection)
    (hc : st.channel.connection = some c) (h0 : 0 ≤ st.requestInfo.chunksLeft) :
    ∃ c1 more, (UA_encodeBinary ps fo offsets st).2.channel.connection = some c1 ∧
      c1.ops = c.ops ++ more ∧
      0 ≤ (UA_encodeBinary ps fo offsets st).2.requestInfo.chunksLeft ∧
      ((sentBuffers more).length : Int) + (UA_encodeBinary ps fo offsets st).2.requestInfo.chunksLeft
        = st.requestInfo.chunksLeft := by
  induction offsets generalizing st c with
  | nil => exact ⟨c, [], hc, by simp, h0, by simp [sentBuffers, UA_encodeBinary]⟩
  | cons p rest ih =>
    obtain ⟨c1, more1, hc1, hops1, hnn1, hsum1⟩ :=
      sendChunk_budget { st with offset := p } c hc h0
    simp only [UA_encodeBinary]
    split
    · exact ⟨c1, more1, hc1, hops1, hnn1, hsum1⟩
    · obtain ⟨c2, more2, hc2, hops2, hnn2, hsum2⟩ := ih _ c1 hc1 hnn1
      refine ⟨c2, more1 ++ more2, hc2, by rw [hops2, hops1, List.append_assoc], hnn2, ?_⟩
      rw [sentBuffers_append, List.length_append]
      push_cast
      simp only at hsum1
      omega

/-- Whatever happens in lines 173-197 on a bound channel, the budget ends not
negative and the chunks handed to the transport and the budget left add up to
`maxChunkCount`. -/
theorem body_budget (channel : UA_SecureChannel) (c : UA_Connection) (requestId : Nat)
    (content : Codec) (numeric : Nat) (message : Buffer) (hc : channel.connection = some c) :
    ∃ c2 more,
      (sendBinaryMessageBody channel c requestId content numeric message).2.channel.connection
        = some c2 ∧
      c2.ops = c.ops ++ more ∧
      0 ≤ (sendBinaryMessageBody channel c requestId content numeric
        message).2.requestInfo.chunksLeft ∧
      ((sentBuffers more).length : Int)
        + (sendBinaryMessageBody channel c requestId content numeric
          message).2.requestInfo.chunksLeft
        = (c.localConf.maxChunkCount : Int) := by
  obtain ⟨c1, more1, hc1, hops1, hnn1, hsum1⟩ :=
    encode_budget content.payloadStatus content.finalOffset content.overflowOffsets
      (stateAfterTypeId channel c requestId content numeric message) c hc
      (by simp [stateAfterTypeId])
  obtain ⟨c2, more2, hc2, hops2, hnn2, hsum2⟩ :=
    sendChunk_budget (switchToFinal (UA_encodeBinary content.payloadStatus content.finalOffset
      content.overflowOffsets (stateAfterTypeId channel c requestId content numeric message)).2)
      c1 hc1 hnn1
  have hfinal : (switchToFinal (UA_encodeBinary content.payloadStatus content.finalOffset
      content.overflowOffsets
      (stateAfterTypeId channel c requestId content numeric message)).2).requestInfo.chunksLeft
      = (UA_encodeBinary content.payloadStatus content.finalOffset content.overflowOffsets
        (stateAfterTypeId channel c requestId content numeric message)).2.requestInfo.chunksLeft :=
    rfl
  have hstart : (stateAfterTypeId channel c requestId content numeric
      message).requestInfo.chunksLeft = (c.localConf.maxChunkCount : Int) := rfl
  rw [hfinal] at hsum2
  rw [hstart] at hsum1
  refine ⟨c2, more1 ++ more2, hc2, by rw [hops2, hops1, List.append_assoc], hnn2, ?_⟩
  rw [sentBuffers_append, List.length_append]
  push_cast
  show ((sentBuffers more1).length : Int) + ((sentBuffers more2).length : Int)
    + (UA_SecureChannel_sendChunk (switchToFinal (UA_encodeBinary content.payloadStatus
        content.finalOffset content.overflowOffsets
        (stateAfterTypeId channel c requestId content numeric message)).2)).2.requestInfo.chunksLeft
    = (c.localConf.maxChunkCount : Int)
  omega

/-! ## C7: a payload that needs more chunks than the budget allows -/

/-- C7, as stated, fails when a step other than the budget check fails: with a
budget of 2 chunks and a payload that needs 4, on a transport whose second
buffer acquisition fails with `BadOutOfMemory`, the call returns
`BadOutOfMemory`, not `BadTcpMessageTooLarge`. -/
theorem C7_buffer_failure_is_not_too_large :
    (UA_SecureChannel_sendBinaryMessage 2 (boundChannel (oneBufferTransport 8192 2) 0) 1001
        (payloadScript [8192, 8192, 8192] 100) (numericType 631)).status
      = UA_STATUSCODE_BADOUTOFMEMORY ∧
    UA_STATUSCODE_BADOUTOFMEMORY ≠ UA_STATUSCODE_BADTCPMESSAGETOOLARGE ∧
    (payloadScript [8192, 8192, 8192] 100).overflowOffsets.length + 1
      > (oneBufferTransport 8192 2).localConf.maxChunkCount := by
  decide

/-- C7, amended: for every `UA_SecureChannel_sendBinaryMessage` call on a bound
channel, whatever fails in it, no more than `maxChunkCount` chunks are handed
to the transport and the remaining-chunk budget is never decremented below
zero (the chunks handed over and the budget left add up to `maxChunkCount`,
and no call of the chunk sender takes a budget that is not negative below
zero); and when the payload needs more chunks than `maxChunkCount` (the
encoder overflows at least `maxChunkCount` times), every buffer acquisition
succeeds and neither the type-identifier encoding nor the payload encoder
fails on its own, the call returns `BadTcpMessageTooLarge`, exactly
`maxChunkCount` chunks are handed over and the budget ends at zero. -/
theorem C7_budget_exhausted_too_large (encodingOffset : Nat) (channel : UA_SecureChannel)
    (c : UA_Connection) (requestId : Nat) (content : Codec) (namespaceIndex n : Nat)
    (hc : channel.connection = some c) :
    (∃ new,
      channelOps (UA_SecureChannel_sendBinaryMessage encodingOffset channel requestId content
          { typeId := { namespaceIndex := namespaceIndex
                        identifier := UA_NodeIdIdentifier.numeric n } }).channel
        = c.ops ++ new ∧
      (sentBuffers new).length ≤ c.localConf.maxChunkCount ∧
      (∀ req, (UA_SecureChannel_sendBinaryMessage encodingOffset channel requestId content
          { typeId := { namespaceIndex := namespaceIndex
                        identifier := UA_NodeIdIdentifier.numeric n } }).requestInfo = some req →
        0 ≤ req.chunksLeft ∧
        ((sentBuffers new).length : Int) + req.chunksLeft = (c.localConf.maxChunkCount : Int)) ∧
      (c.localConf.maxChunkCount ≤ content.overflowOffsets.length →
        (∀ i, c.getSendBufferStatus i = UA_STATUSCODE_GOOD) →
        content.typeIdStatus = UA_STATUSCODE_GOOD →
        content.payloadStatus = UA_STATUSCODE_GOOD →
        (UA_SecureChannel_sendBinaryMessage encodingOffset channel requestId content
          { typeId := { namespaceIndex := namespaceIndex
                        identifier := UA_NodeIdIdentifier.numeric n } }).status = UA_STATUSCODE_BADTCPMESSAGETOOLARGE ∧
        (sentBuffers new).length = c.localConf.maxChunkCount ∧
        ∃ req, (UA_SecureChannel_sendBinaryMessage encodingOffset channel requestId content
          { typeId := { namespaceIndex := namespaceIndex
                        identifier := UA_NodeIdIdentifier.numeric n } }).requestInfo = some req ∧ req.chunksLeft = 0)) ∧
    (∀ st : SendState, 0 ≤ st.requestInfo.chunksLeft →
      0 ≤ (UA_SecureChannel_sendChunk st).2.requestInfo.chunksLeft) := by
  refine ⟨?_, ?_⟩
  swap
  · intro st h0
    cases hconn : st.channel.connection with
    | none =>
      simp only [UA_SecureChannel_sendChunk, hconn]
      exact h0
    | some c1 =>
      obtain ⟨_, _, _, _, hnn, _⟩ := sendChunk_budget st c1 hconn h0
      exact hnn
  by_cases h0 : c.getSendBufferStatus (countGetSendBuffer c.ops) = UA_STATUSCODE_GOOD
  · rw [sendBinaryMessage_acquired encodingOffset channel c requestId content namespaceIndex n
      hc h0]
    obtain ⟨c2, more, hc2, hops2, hnn, hsum⟩ := body_budget
      { channel with
        connection := some
          { c with ops := c.ops ++ [TransportOp.getSendBuffer c.localConf.sendBufferSize] } }
      { c with ops := c.ops ++ [TransportOp.getSendBuffer c.localConf.sendBufferSize] }
      requestId content ((n + encodingOffset) % 2 ^ 32)
      { length := c.localConf.sendBufferSize, headers := none } rfl
    have hlen : (sentBuffers (TransportOp.getSendBuffer c.localConf.sendBufferSize :: more)).length
        = (sentBuffers more).length := by
      simp [sentBuffers]
    refine ⟨TransportOp.getSendBuffer c.localConf.sendBufferSize :: more, ?_, ?_, ?_, ?_⟩
    · simp only [channelOps, hc2, hops2]
      simp
    · rw [hlen]
      simp only at hsum
      omega
    · intro req hreq
      simp only [Option.some.injEq] at hreq
      subst hreq
      rw [hlen]
      exact ⟨hnn, hsum⟩
    · intro hk hget hts hps
      obtain ⟨h1, h2, _⟩ := body_exhausted
        { channel with
          connection := some
            { c with ops := c.ops ++ [TransportOp.getSendBuffer c.localConf.sendBufferSize] } }
        { c with ops := c.ops ++ [TransportOp.getSendBuffer c.localConf.sendBufferSize] }
        requestId content ((n + encodingOffset) % 2 ^ 32)
        { length := c.localConf.sendBufferSize, headers := none } rfl hget hps hk
      refine ⟨?_, ?_, _, rfl, h2⟩
      · simp only [h1, hts]
        decide
      · rw [hlen]
        rw [h2] at hsum
        simp only at hsum
        omega
  · have hres : UA_SecureChannel_sendBinaryMessage encodingOffset channel requestId content
        { typeId := { namespaceIndex := namespaceIndex
                      identifier := UA_NodeIdIdentifier.numeric n } }
        = { status := c.getSendBufferStatus (countGetSendBuffer c.ops)
            channel :=
              { channel with
                connection := some
                  { c with
                    ops := c.ops ++ [TransportOp.getSendBuffer c.localConf.sendBufferSize] } }
            requestInfo := none } := by
      simp [UA_SecureChannel_sendBinaryMessage, hc, UA_Connection.getSendBuffer, h0]
    rw [hres]
    refine ⟨[TransportOp.getSendBuffer c.localConf.sendBufferSize], rfl, by simp [sentBuffers],
      ?_, ?_⟩
    · intro req hreq
      cases hreq
    · intro _ hget
      exact absurd (hget _) h0

/-- C7, amended, at a budget of 2 chunks and a payload that needs 4, on a
transport all of whose calls succeed. -/
theorem C7_budget_exhausted_witness :
    (boundChannel (goodTransport 8192 2) 0).connection = some (goodTransport 8192 2) ∧
    (goodTransport 8192 2).localConf.maxChunkCount
      ≤ (payloadScript [8192, 8192, 8192] 100).overflowOffsets.length ∧
    (∀ i, (goodTransport 8192 2).getSendBufferStatus i = UA_STATUSCODE_GOOD) ∧
    (payloadScript [8192, 8192, 8192] 100).typeIdStatus = UA_STATUSCODE_GOOD ∧
    (payloadScript [8192, 8192, 8192] 100).payloadStatus = UA_STATUSCODE_GOOD ∧
    ((∃ new,
      channelOps (UA_SecureChannel_sendBinaryMessage 2 (boundChannel (goodTransport 8192 2) 0) 1001
          (payloadScript [8192, 8192, 8192] 100)
          { typeId := { namespaceIndex := 0
                        identifier := UA_NodeIdIdentifier.numeric 631 } }).channel
        = (goodTransport 8192 2).ops ++ new ∧
      (sentBuffers new).length ≤ (goodTransport 8192 2).localConf.maxChunkCount ∧
      (∀ req, (UA_SecureChannel_sendBinaryMessage 2 (boundChannel (goodTransport 8192 2) 0) 1001
          (payloadScript [8192, 8192, 8192] 100)
          { typeId := { namespaceIndex := 0
                        identifier := UA_NodeIdIdentifier.numeric 631 } }).requestInfo = some req →
        0 ≤ req.chunksLeft ∧
        ((sentBuffers new).length : Int) + req.chunksLeft = ((goodTransport 8192 2).localConf.maxChunkCount : Int)) ∧
      ((goodTransport 8192 2).localConf.maxChunkCount ≤ (payloadScript [8192, 8192, 8192] 100).overflowOffsets.length →
        (∀ i, (goodTransport 8192 2).getSendBufferStatus i = UA_STATUSCODE_GOOD) →
        (payloadScript [8192, 8192, 8192] 100).typeIdStatus = UA_STATUSCODE_GOOD →
        (payloadScript [8192, 8192, 8192] 100).payloadStatus = UA_STATUSCODE_GOOD →
        (UA_SecureChannel_sendBinaryMessage 2 (boundChannel (goodTransport 8192 2) 0) 1001
          (payloadScript [8192, 8192, 8192] 100)
          { typeId := { namespaceIndex := 0
                        identifier := UA_NodeIdIdentifier.numeric 631 } }).status = UA_STATUSCODE_BADTCPMESSAGETOOLARGE ∧
        (sentBuffers new).length = (goodTransport 8192 2).localConf.maxChunkCount ∧
        ∃ req, (UA_SecureChannel_sendBinaryMessage 2 (boundChannel (goodTransport 8192 2) 0) 1001
          (payloadScript [8192, 8192, 8192] 100)
          { typeId := { namespaceIndex := 0
                        identifier := UA_NodeIdIdentifier.numeric 631 } }).requestInfo = some req ∧ req.chunksLeft = 0)) ∧
    (∀ st : SendState, 0 ≤ st.requestInfo.chunksLeft →
      0 ≤ (UA_SecureChannel_sendChunk st).2.requestInfo.chunksLeft)) :=
  ⟨rfl, by decide, fun _ => rfl, rfl, rfl,
    C7_budget_exhausted_too_large 2 (boundChannel (goodTransport 8192 2) 0)
      (goodTransport 8192 2) 1001 (payloadScript [8192, 8192, 8192] 100) 0 631 rfl⟩

/-! ## C8: the status of a send whose transport fails -/

/-- C8 on a transport whose `send` fails: the single chunk of the message is
handed to `send`, `send` answers `BadConnectionClosed`, and
`UA_SecureChannel_sendBinaryMessage` still returns `GOOD`. -/
theorem C8_failed_send_returns_good :
    (UA_SecureChannel_sendBinaryMessage 2 (boundChannel (closedTransport 8192 4) 0) 1001
        (payloadScript [] 100) (numericType 631)).status = UA_STATUSCODE_GOOD ∧
    (sentBuffers (channelOps (UA_SecureChannel_sendBinaryMessage 2
        (boundChannel (closedTransport 8192 4) 0) 1001 (payloadScript [] 100)
        (numericType 631)).channel)).length = 1 ∧
    (closedTransport 8192 4).sendStatus 0 = UA_STATUSCODE_BADCONNECTIONCLOSED ∧
    UA_STATUSCODE_BADCONNECTIONCLOSED ≠ UA_STATUSCODE_GOOD := by
  decide

/-! ## C9: the combination of two different failure codes -/

/-- C9 on a budget of one chunk and a payload that needs two, when the second
buffer acquisition fails: payload encoding returns `BadOutOfMemory`, the final
chunk is refused with `BadTcpMessageTooLarge`, and the call returns their
bitwise disjunction `BadTcpEndpointUrlInvalid`, a code that no step returned. -/
theorem C9_two_failures_give_third_code :
    (UA_encodeBinary 0 100 [8192]
        (stateAfterTypeId
          (boundChannel ((oneBufferTransport 8192 1).getSendBuffer 8192
            { length := 0, headers := none }).2.1 0)
          ((oneBufferTransport 8192 1).getSendBuffer 8192
            { length := 0, headers := none }).2.1 1001 (payloadScript [8192] 100) 633
          { length := 8192, headers := none })).1 = UA_STATUSCODE_BADOUTOFMEMORY ∧
    (UA_SecureChannel_sendChunk (switchToFinal (UA_encodeBinary 0 100 [8192]
        (stateAfterTypeId
          (boundChannel ((oneBufferTransport 8192 1).getSendBuffer 8192
            { length := 0, headers := none }).2.1 0)
          ((oneBufferTransport 8192 1).getSendBuffer 8192
            { length := 0, headers := none }).2.1 1001 (payloadScript [8192] 100) 633
          { length := 8192, headers := none })).2)).1 = UA_STATUSCODE_BADTCPMESSAGETOOLARGE ∧
    (UA_SecureChannel_sendBinaryMessage 2 (boundChannel (oneBufferTransport 8192 1) 0) 1001
        (payloadScript [8192] 100) (numericType 631)).status
      = UA_STATUSCODE_BADTCPENDPOINTURLINVALID ∧
    UA_STATUSCODE_BADTCPENDPOINTURLINVALID ≠ UA_STATUSCODE_GOOD ∧
    UA_STATUSCODE_BADTCPENDPOINTURLINVALID ≠ UA_STATUSCODE_BADOUTOFMEMORY ∧
    UA_STATUSCODE_BADTCPENDPOINTURLINVALID ≠ UA_STATUSCODE_BADTCPMESSAGETOOLARGE := by
  decide

/-! ## C10: the headers of a chunk -/

/-- C10, as stated, fails where a value does not fit its 4-byte header field:
with the channel's sequence number at 4294967295 the header carries sequence
number 0, not 4294967296; and with the write offset at 4294967396 the header
carries message size 100 and the buffer's declared length is 100. -/
theorem C10_header_fields_wrap :
    (sentBuffers (channelOps (UA_SecureChannel_sendChunk
        (chunkState 4294967295 100 UA_ChunkType.FINAL 1)).2.channel)).map Buffer.sequenceNumber
      = [some 0] ∧
    (4294967295 + 1 : Nat) ≠ 0 ∧
    sentBuffers (channelOps (UA_SecureChannel_sendChunk
        (chunkState 5 4294967396 UA_ChunkType.FINAL 1)).2.channel)
      = [{ length := 100
           headers := some
             { messageTypeAndChunkType := UA_MessageType.MSG.toNat + UA_ChunkType.FINAL.toNat
               messageSize := 100
               secureChannelId := 7
               tokenId := 42
               sequenceNumber := 6
               requestId := 1001 } }] ∧
    (4294967396 : Nat) ≠ 100 := by
  decide

/-- C10, amended: for every `UA_SecureChannel_sendChunk` invocation that passes
the transport and budget checks, the buffer handed to `send` carries the tag
message kind + chunk kind, the channel id and the token id of the current
token, the request id of the request state, the message size
`offset mod 2^32` and the sequence number `(previous + 1) mod 2^32`, which is
also the channel's sequence number after the call; the buffer's declared
length equals that message size. -/
theorem C10_sendChunk_headers (st : SendState) (c : UA_Connection)
    (hc : st.channel.connection = some c) (hb : ¬ st.requestInfo.chunksLeft < 1) :
    (∃ more,
      channelOps (UA_SecureChannel_sendChunk st).2.channel
        = c.ops ++
          TransportOp.send
            { length := st.offset % 2 ^ 32
              headers := some
                { messageTypeAndChunkType :=
                    st.requestInfo.messageType.toNat + st.requestInfo.chunkType.toNat
                  messageSize := st.offset % 2 ^ 32
                  secureChannelId := st.channel.securityToken.channelId
                  tokenId := st.channel.securityToken.tokenId
                  sequenceNumber := (st.channel.sequenceNumber + 1) % 2 ^ 32
                  requestId := st.requestInfo.requestId } } :: more) ∧
    (UA_SecureChannel_sendChunk st).2.channel.sequenceNumber
      = (st.channel.sequenceNumber + 1) % 2 ^ 32 := by
  have hb1 : 1 ≤ st.requestInfo.chunksLeft := by omega
  by_cases hct : st.requestInfo.chunkType = UA_ChunkType.INTERMEDIATE
  · rw [sendChunk_intermediate st c hc hb1 hct]
    exact ⟨⟨_, rfl⟩, rfl⟩
  · rw [sendChunk_final st c hc hb1 hct]
    exact ⟨⟨_, rfl⟩, rfl⟩

/-- C10, amended, at an intermediate chunk of 8192 bytes. -/
theorem C10_sendChunk_headers_witness :
    (chunkState 5 8192 UA_ChunkType.INTERMEDIATE 3).channel.connection
      = some (goodTransport 8192 4) ∧
    ¬ (chunkState 5 8192 UA_ChunkType.INTERMEDIATE 3).requestInfo.chunksLeft < 1 ∧
    ((∃ more,
      channelOps (UA_SecureChannel_sendChunk
          (chunkState 5 8192 UA_ChunkType.INTERMEDIATE 3)).2.channel
        = (goodTransport 8192 4).ops ++
          TransportOp.send
            { length := (chunkState 5 8192 UA_ChunkType.INTERMEDIATE 3).offset % 2 ^ 32
              headers := some
                { messageTypeAndChunkType :=
                    (chunkState 5 8192 UA_ChunkType.INTERMEDIATE 3).requestInfo.messageType.toNat
                      + (chunkState 5 8192 UA_ChunkType.INTERMEDIATE 3).requestInfo.chunkType.toNat
                  messageSize := (chunkState 5 8192 UA_ChunkType.INTERMEDIATE 3).offset % 2 ^ 32
                  secureChannelId :=
                    (chunkState 5 8192 UA_ChunkType.INTERMEDIATE 3).channel.securityToken.channelId
                  tokenId :=
                    (chunkState 5 8192 UA_ChunkType.INTERMEDIATE 3).channel.securityToken.tokenId
                  sequenceNumber :=
                    ((chunkState 5 8192 UA_ChunkType.INTERMEDIATE 3).channel.sequenceNumber + 1)
                      % 2 ^ 32
                  requestId :=
                    (chunkState 5 8192 UA_ChunkType.INTERMEDIATE 3).requestInfo.requestId } }
            :: more) ∧
    (UA_SecureChannel_sendChunk (chunkState 5 8192 UA_ChunkType.INTERMEDIATE 3)).2.channel.sequenceNumber
      = ((chunkState 5 8192 UA_ChunkType.INTERMEDIATE 3).channel.sequenceNumber + 1) % 2 ^ 32) :=
  ⟨rfl, by decide,
    C10_sendChunk_headers (chunkState 5 8192 UA_ChunkType.INTERMEDIATE 3) (goodTransport 8192 4)
      rfl (by decide)⟩

/-! ## Further lemmas on the registry -/

/-- The detach loop changes nothing when no entry has the session pointer. -/
theorem removeFirstEntry_of_not_mem (session : Option Nat) (l : List SessionEntry)
    (h : ∀ e ∈ l, e.session ≠ session) : removeFirstEntry session l = l := by
  induction l with
  | nil => rfl
  | cons se rest ih =>
    have h1 : se.session ≠ session := h se (List.mem_cons_self _ _)
    simp [removeFirstEntry, h1, ih (fun e he => h e (List.mem_cons_of_mem _ he))]

/-- The detach loop unlinks the first entry that has the session pointer and
keeps the entries before and after it in their order. -/
theorem removeFirstEntry_split (session : Option Nat) (pre post : List SessionEntry)
    (h : ∀ e ∈ pre, e.session ≠ session) :
    removeFirstEntry session (pre ++ { session := session } :: post) = pre ++ post := by
  induction pre with
  | nil => simp [removeFirstEntry]
  | cons se rest ih =>
    have h1 : se.session ≠ session := h se (List.mem_cons_self _ _)
    simp [removeFirstEntry, h1, ih (fun e he => h e (List.mem_cons_of_mem _ he))]

/-! ## C12: the budget check of the chunk sender -/

/-- C12: on a bound channel, `UA_SecureChannel_sendChunk` with a remaining-chunk
budget below 1 returns `BadTcpMessageTooLarge` and leaves everything as it was
(the transport's trace, the budget, the sequence number, the buffer and the
offset); otherwise the budget after the call is the budget before it minus
one. -/
theorem C12_sendChunk_budget (st : SendState) (c : UA_Connection)
    (hc : st.channel.connection = some c) :
    (st.requestInfo.chunksLeft < 1 →
      UA_SecureChannel_sendChunk st = (UA_STATUSCODE_BADTCPMESSAGETOOLARGE, st)) ∧
    (¬ st.requestInfo.chunksLeft < 1 →
      (UA_SecureChannel_sendChunk st).2.requestInfo.chunksLeft
        = st.requestInfo.chunksLeft - 1) := by
  constructor
  · intro hb
    exact sendChunk_exhausted st c hc hb
  · intro hb
    have hb1 : 1 ≤ st.requestInfo.chunksLeft := by omega
    by_cases hct : st.requestInfo.chunkType = UA_ChunkType.INTERMEDIATE
    · rw [sendChunk_intermediate st c hc hb1 hct]
    · rw [sendChunk_final st c hc hb1 hct]

/-- C12 at a final chunk with an exhausted budget. -/
theorem C12_sendChunk_budget_witness :
    (chunkState 5 100 UA_ChunkType.FINAL 0).channel.connection = some (goodTransport 8192 4) ∧
    (((chunkState 5 100 UA_ChunkType.FINAL 0).requestInfo.chunksLeft < 1 →
      UA_SecureChannel_sendChunk (chunkState 5 100 UA_ChunkType.FINAL 0)
        = (UA_STATUSCODE_BADTCPMESSAGETOOLARGE, chunkState 5 100 UA_ChunkType.FINAL 0)) ∧
    (¬ (chunkState 5 100 UA_ChunkType.FINAL 0).requestInfo.chunksLeft < 1 →
      (UA_SecureChannel_sendChunk (chunkState 5 100 UA_ChunkType.FINAL 0)).2.requestInfo.chunksLeft
        = (chunkState 5 100 UA_ChunkType.FINAL 0).requestInfo.chunksLeft - 1)) :=
  ⟨rfl, C12_sendChunk_budget (chunkState 5 100 UA_ChunkType.FINAL 0) (goodTransport 8192 4) rfl⟩

/-! ## C13: detaching a session -/

/-- C13: `UA_SecureChannel_detachSession(c, s)` leaves the back-reference of `s`
absent whatever it was and whatever the registry of `c` holds, touches no other
session and no other channel, and unlinks from the registry of `c` exactly the
first entry that refers to `s`: the entries before it and after it keep their
order, and a registry without an entry for `s` is unchanged. -/
theorem C13_detach_clears_and_unlinks_first (w : World) (c s : Nat) :
    ((UA_SecureChannel_detachSession w c (some s)).sessions s).channel = none ∧
    ((UA_SecureChannel_detachSession w c (some s)).sessions s).authenticationToken
      = (w.sessions s).authenticationToken ∧
    (∀ t, t ≠ s → (UA_SecureChannel_detachSession w c (some s)).sessions t = w.sessions t) ∧
    (∀ d, d ≠ c → (UA_SecureChannel_detachSession w c (some s)).channels d = w.channels d) ∧
    ((∀ e ∈ (w.channels c).sessions, e.session ≠ some s) →
      ((UA_SecureChannel_detachSession w c (some s)).channels c).sessions
        = (w.channels c).sessions) ∧
    (∀ pre post, (w.channels c).sessions = pre ++ { session := some s } :: post →
      (∀ e ∈ pre, e.session ≠ some s) →
      ((UA_SecureChannel_detachSession w c (some s)).channels c).sessions = pre ++ post) := by
  refine ⟨by simp [UA_SecureChannel_detachSession, store],
    by simp [UA_SecureChannel_detachSession, store], ?_, ?_, ?_, ?_⟩
  · intro t ht
    simp [UA_SecureChannel_detachSession, store, ht]
  · intro d hd
    simp [UA_SecureChannel_detachSession, store, hd]
  · intro h
    simp [UA_SecureChannel_detachSession, store, removeFirstEntry_of_not_mem _ _ h]
  · intro pre post hsplit hpre
    simp [UA_SecureChannel_detachSession, store, hsplit, removeFirstEntry_split _ _ _ hpre]

/-! ## C14: detach, then attach -/

/-- C14: after `UA_SecureChannel_detachSession(c1, s)` followed by
`UA_SecureChannel_attachSession(c2, s)` with a successful allocation, the
back-reference of `s` is `c2` and the registry of `c2` is an entry for `s`
followed by the registry `c2` had when the attach was called: its registry
before both calls when `c1` and `c2` differ, and that registry without its
first entry for `s` when they are the same channel. -/
theorem C14_detach_then_attach (w : World) (c1 c2 s : Nat) :
    ((UA_SecureChannel_attachSession (UA_SecureChannel_detachSession w c1 (some s))
        c2 s true).sessions s).channel = some c2 ∧
    ((UA_SecureChannel_attachSession (UA_SecureChannel_detachSession w c1 (some s))
        c2 s true).channels c2).sessions
      = { session := some s }
          :: ((UA_SecureChannel_detachSession w c1 (some s)).channels c2).sessions ∧
    (c1 ≠ c2 →
      ((UA_SecureChannel_attachSession (UA_SecureChannel_detachSession w c1 (some s))
          c2 s true).channels c2).sessions
        = { session := some s } :: (w.channels c2).sessions) ∧
    (c1 = c2 →
      ((UA_SecureChannel_attachSession (UA_SecureChannel_detachSession w c1 (some s))
          c2 s true).channels c2).sessions
        = { session := some s } :: removeFirstEntry (some s) (w.channels c2).sessions) := by
  have hnone : ((UA_SecureChannel_detachSession w c1 (some s)).sessions s).channel = none := by
    simp [UA_SecureChannel_detachSession, store]
  refine ⟨?_, ?_, ?_, ?_⟩
  · simp [UA_SecureChannel_attachSession, hnone, store]
  · simp [UA_SecureChannel_attachSession, hnone, store]
  · intro hne
    have h21 : ¬ c2 = c1 := fun h => hne h.symm
    simp [UA_SecureChannel_attachSession, hnone, store]
    simp [UA_SecureChannel_detachSession, store, h21]
  · intro heq
    subst heq
    simp [UA_SecureChannel_attachSession, hnone, store]
    simp [UA_SecureChannel_detachSession, store]

/-! ## C15: entries per session -/

/-- C15, as stated, fails: from a fresh memory, attaching session 5 to channel
1, detaching it from channel 2 and attaching it to channel 1 again leaves two
entries for session 5 in the registry of channel 1. -/
theorem C15_detach_elsewhere_duplicates_entry :
    Fresh freshWorld ∧
    ((runCalls freshWorld
        [RegistryCall.attach 1 5 true, RegistryCall.detach 2 (some 5),
          RegistryCall.attach 1 5 true]).channels 1).sessions
      = [{ session := some 5 }, { session := some 5 }] ∧
    (((runCalls freshWorld
        [RegistryCall.attach 1 5 true, RegistryCall.detach 2 (some 5),
          RegistryCall.attach 1 5 true]).channels 1).sessions).count { session := some 5 }
      = 2 := by
  refine ⟨freshWorld_fresh, by decide, by decide⟩

/-- C15, amended: from a fresh memory, after every finite sequence of attach
and detach calls (and teardowns) in which no session is detached from a channel
other than the one it is attached to, every registry holds at most one entry
per session, and exactly one entry for each session whose back-reference is
that channel. -/
theorem C15_one_entry_per_attached_session (w : World) (calls : List RegistryCall)
    (hfresh : Fresh w) (haimed : aimedCalls w calls = true) :
    ∀ c s,
      (((runCalls w calls).channels c).sessions).count { session := some s } ≤ 1 ∧
      (((runCalls w calls).sessions s).channel = some c →
        (((runCalls w calls).channels c).sessions).count { session := some s } = 1) := by
  intro c s
  obtain ⟨hcons, hnodup⟩ :=
    runCalls_preserves calls w haimed (fresh_consistent w hfresh).1 (fresh_consistent w hfresh).2
  have hle := List.nodup_iff_count_le_one.mp (hnodup c) { session := some s }
  refine ⟨hle, ?_⟩
  intro hattached
  have hmem := (hcons s c).mp hattached
  have hpos := List.count_pos_iff.mpr hmem
  omega

/-- C15, amended, at a concrete sequence of attach and detach calls. -/
theorem C15_one_entry_witness :
    Fresh freshWorld ∧
    aimedCalls freshWorld
      [RegistryCall.attach 1 5 true, RegistryCall.attach 1 6 true,
        RegistryCall.detach 1 (some 5), RegistryCall.attach 2 5 true,
        RegistryCall.attach 1 5 true] = true ∧
    ∀ c s,
      (((runCalls freshWorld
        [RegistryCall.attach 1 5 true, RegistryCall.attach 1 6 true,
          RegistryCall.detach 1 (some 5), RegistryCall.attach 2 5 true,
          RegistryCall.attach 1 5 true]).channels c).sessions).count { session := some s } ≤ 1 ∧
      (((runCalls freshWorld
        [RegistryCall.attach 1 5 true, RegistryCall.attach 1 6 true,
          RegistryCall.detach 1 (some 5), RegistryCall.attach 2 5 true,
          RegistryCall.attach 1 5 true]).sessions s).channel = some c →
        (((runCalls freshWorld
          [RegistryCall.attach 1 5 true, RegistryCall.attach 1 6 true,
            RegistryCall.detach 1 (some 5), RegistryCall.attach 2 5 true,
            RegistryCall.attach 1 5 true]).channels c).sessions).count { session := some s }
          = 1) :=
  ⟨freshWorld_fresh, by decide,
    C15_one_entry_per_attached_session freshWorld _ freshWorld_fresh (by decide)⟩

/-! ## C16: looking a session up by its token -/

/-- The scan returns the first session that carries the token. -/
theorem getSessionScan_first (sessions : Nat → UA_Session) (token : UA_NodeId)
    (pre post : List SessionEntry) (s : Nat)
    (hpre : ∀ e ∈ pre, ∃ r, e.session = some r ∧ (sessions r).authenticationToken ≠ token)
    (hs : (sessions s).authenticationToken = token) :
    getSessionScan sessions token (pre ++ { session := some s } :: post) = some (some s) := by
  induction pre with
  | nil => simp [getSessionScan, hs]
  | cons se rest ih =>
    obtain ⟨r, hr, hne⟩ := hpre se (List.mem_cons_self _ _)
    simp only [List.cons_append, getSessionScan, hr, hne, ite_false]
    exact ih (fun e he => hpre e (List.mem_cons_of_mem _ he))

/-- On a registry whose entries all refer to a session, the scan returns
not-found exactly when no session carries the token, and it always returns. -/
theorem getSessionScan_notFound (sessions : Nat → UA_Session) (token : UA_NodeId)
    (l : List SessionEntry) (h : ∀ e ∈ l, e.session ≠ none) :
    (getSessionScan sessions token l = some none ↔
      ∀ e ∈ l, ∀ r, e.session = some r → (sessions r).authenticationToken ≠ token) ∧
    getSessionScan sessions token l ≠ none := by
  induction l with
  | nil => simp [getSessionScan]
  | cons se rest ih =>
    have ih1 := ih (fun e he => h e (List.mem_cons_of_mem _ he))
    rcases se with ⟨_ | r⟩
    · exact absurd rfl (h _ (List.mem_cons_self _ _))
    · by_cases hr : (sessions r).authenticationToken = token
      · simp [getSessionScan, hr]
      · simp only [getSessionScan, hr, ite_false, List.mem_cons, forall_eq_or_imp,
          Option.some.injEq, forall_eq']
        exact ⟨by simp [hr, ih1.1], ih1.2⟩

/-- C16: on a channel whose registry entries all refer to a session,
`UA_SecureChannel_getSession` returns (it has a result), the result is the
session of the first entry, in list order from the head, whose session carries
the token, and it is not-found (`NULL`) if and only if no entry's session
carries the token.  The function only reads: it has no effect on the registry
or on the sessions. -/
theorem C16_getSession_first_match (w : World) (c : Nat) (token : UA_NodeId)
    (h : ∀ e ∈ (w.channels c).sessions, e.session ≠ none) :
    UA_SecureChannel_getSession w c token ≠ none ∧
    (∀ pre s post, (w.channels c).sessions = pre ++ { session := some s } :: post →
      (∀ e ∈ pre, ∀ r, e.session = some r → (w.sessions r).authenticationToken ≠ token) →
      (w.sessions s).authenticationToken = token →
      UA_SecureChannel_getSession w c token = some (some s)) ∧
    (UA_SecureChannel_getSession w c token = some none ↔
      ∀ e ∈ (w.channels c).sessions, ∀ r, e.session = some r →
        (w.sessions r).authenticationToken ≠ token) := by
  have hscan := getSessionScan_notFound w.sessions token (w.channels c).sessions h
  refine ⟨hscan.2, ?_, hscan.1⟩
  intro pre s post hsplit hpre hs
  unfold UA_SecureChannel_getSession
  rw [hsplit]
  apply getSessionScan_first _ _ _ _ _ _ hs
  intro e he
  have hmem : e ∈ (w.channels c).sessions := by
    rw [hsplit]
    exact List.mem_append_left _ he
  cases hes : e.session with
  | none => exact absurd hes (h e hmem)
  | some r => exact ⟨r, rfl, hpre e he r hes⟩

/-- C16 on a channel with sessions 6 and 5 attached, in that order from the head. -/
theorem C16_getSession_witness :
    (∀ e ∈ ((runCalls freshWorld
        [RegistryCall.attach 1 5 true, RegistryCall.attach 1 6 true]).channels 1).sessions,
      e.session ≠ none) ∧
    (UA_SecureChannel_getSession (runCalls freshWorld
        [RegistryCall.attach 1 5 true, RegistryCall.attach 1 6 true]) 1
        { namespaceIndex := 0, identifier := UA_NodeIdIdentifier.numeric 5 } ≠ none ∧
    (∀ pre s post, ((runCalls freshWorld
        [RegistryCall.attach 1 5 true, RegistryCall.attach 1 6 true]).channels 1).sessions
        = pre ++ { session := some s } :: post →
      (∀ e ∈ pre, ∀ r, e.session = some r →
        ((runCalls freshWorld
          [RegistryCall.attach 1 5 true, RegistryCall.attach 1 6 true]).sessions r).authenticationToken
          ≠ { namespaceIndex := 0, identifier := UA_NodeIdIdentifier.numeric 5 }) →
      ((runCalls freshWorld
        [RegistryCall.attach 1 5 true, RegistryCall.attach 1 6 true]).sessions s).authenticationToken
        = { namespaceIndex := 0, identifier := UA_NodeIdIdentifier.numeric 5 } →
      UA_SecureChannel_getSession (runCalls freshWorld
        [RegistryCall.attach 1 5 true, RegistryCall.attach 1 6 true]) 1
        { namespaceIndex := 0, identifier := UA_NodeIdIdentifier.numeric 5 } = some (some s)) ∧
    (UA_SecureChannel_getSession (runCalls freshWorld
        [RegistryCall.attach 1 5 true, RegistryCall.attach 1 6 true]) 1
        { namespaceIndex := 0, identifier := UA_NodeIdIdentifier.numeric 5 } = some none ↔
      ∀ e ∈ ((runCalls freshWorld
          [RegistryCall.attach 1 5 true, RegistryCall.attach 1 6 true]).channels 1).sessions,
        ∀ r, e.session = some r →
          ((runCalls freshWorld
            [RegistryCall.attach 1 5 true, RegistryCall.attach 1 6 true]).sessions r).authenticationToken
            ≠ { namespaceIndex := 0, identifier := UA_NodeIdIdentifier.numeric 5 })) :=
  ⟨by decide,
    C16_getSession_first_match (runCalls freshWorld
      [RegistryCall.attach 1 5 true, RegistryCall.attach 1 6 true]) 1
      { namespaceIndex := 0, identifier := UA_NodeIdIdentifier.numeric 5 } (by decide)⟩

/-! ## C11: the sequence numbers of successive chunks -/

/-- A chunk that passes both checks is sent with the next sequence number,
which becomes the channel's sequence number. -/
theorem sendChunk_sequenceNumber (st : SendState) (c : UA_Connection)
    (hc : st.channel.connection = some c) (hb : 1 ≤ st.requestInfo.chunksLeft) :
    ∃ c1 more, (UA_SecureChannel_sendChunk st).2.channel.connection = some c1 ∧
      c1.ops = c.ops ++ more ∧
      (sentBuffers more).map Buffer.sequenceNumber
        = [some ((st.channel.sequenceNumber + 1) % 2 ^ 32)] ∧
      (UA_SecureChannel_sendChunk st).2.channel.sequenceNumber
        = (st.channel.sequenceNumber + 1) % 2 ^ 32 := by
  by_cases hct : st.requestInfo.chunkType = UA_ChunkType.INTERMEDIATE
  · rw [sendChunk_intermediate st c hc hb hct]
    exact ⟨_, _, rfl, rfl, by simp [sentBuffers, Buffer.sequenceNumber, chunkBufferOf], rfl⟩
  · rw [sendChunk_final st c hc hb hct]
    exact ⟨_, _, rfl, rfl, by simp [sentBuffers, Buffer.sequenceNumber, chunkBufferOf], rfl⟩

/-- The sequence numbers written by a sequence of emissions on a bound channel. -/
theorem runEmissions_sequenceNumbers (ems : List Emission) (channel : UA_SecureChannel)
    (c : UA_Connection) (hc : channel.connection = some c) :
    ∃ new, channelOps (runEmissions channel ems) = c.ops ++ new ∧
      (sentBuffers new).map Buffer.sequenceNumber
        = (List.range (acceptedCount ems)).map
            (fun i => some ((channel.sequenceNumber + i + 1) % 2 ^ 32)) ∧
      (runEmissions channel ems).sequenceNumber
        = sequenceAfter channel.sequenceNumber (acceptedCount ems) := by
  induction ems generalizing channel c with
  | nil => exact ⟨[], by simp [runEmissions, channelOps, hc], by simp [acceptedCount, sentBuffers],
      by simp [runEmissions, acceptedCount, sequenceAfter]⟩
  | cons e rest ih =>
    by_cases hb : e.requestInfo.chunksLeft < 1
    · have h1 := sendChunk_exhausted
        { channel := channel, requestInfo := e.requestInfo, dst := e.dst, offset := e.offset }
        c hc hb
      obtain ⟨new, hops, hseq, hfin⟩ := ih channel c hc
      refine ⟨new, ?_, ?_, ?_⟩
      · simpa only [runEmissions, h1] using hops
      · simpa only [acceptedCount, hb, ite_true] using hseq
      · simpa only [runEmissions, h1, acceptedCount, hb, ite_true] using hfin
    · obtain ⟨c1, more, hc1, hops1, hseq1, hnum1⟩ := sendChunk_sequenceNumber
        { channel := channel, requestInfo := e.requestInfo, dst := e.dst, offset := e.offset }
        c hc (by simp only; omega)
      obtain ⟨new, hops, hseq, hfin⟩ := ih _ c1 hc1
      refine ⟨more ++ new, ?_, ?_, ?_⟩
      · simp only [runEmissions, hops, hops1, List.append_assoc]
      · simp only [sentBuffers_append, List.map_append, hseq1, hseq, acceptedCount, hb,
          ite_false, List.range_succ_eq_map, List.map_cons, List.map_map, hnum1,
          List.singleton_append]
        refine congrArg₂ _ (by simp) ?_
        apply List.map_congr_left
        intro i _
        simp only [Function.comp, Option.some.injEq]
        norm_num
        omega
      · simp only [runEmissions, hfin, hnum1, acceptedCount, hb, ite_false, sequenceAfter]

/-- A list whose images are all `some` is filtered to those values. -/
theorem filterMap_of_map_eq_some {α β γ : Type} (f : α → Option β) (g : γ → β) :
    ∀ (l : List α) (r : List γ), l.map f = r.map (fun i => some (g i)) →
      l.filterMap f = r.map g := by
  intro l
  induction l with
  | nil =>
    intro r h
    cases r with
    | nil => rfl
    | cons x xs => simp at h
  | cons a l ih =>
    intro r h
    cases r with
    | nil => simp at h
    | cons x xs =>
      simp only [List.map_cons, List.cons.injEq] at h
      simp [List.filterMap_cons, h.1, ih xs h.2]

/-- C11, as stated, fails at the wrap of the 32-bit counter: two chunks sent
from sequence number 4294967294 carry 4294967295 and then 0, which is not
increasing. -/
theorem C11_sequence_numbers_not_increasing_at_wrap :
    sentSequenceNumbers (channelOps (runEmissions (boundChannel (goodTransport 8192 4) 4294967294)
        [finalEmission, finalEmission]))
      = [4294967295, 0] ∧
    ¬ List.Pairwise (fun a b => a < b) [4294967295, 0] := by
  decide

/-- C11, amended: on a bound channel, every sequence of chunk emissions writes
into the headers of the chunks that pass the budget check the sequence numbers
`(pre + 1) mod 2^32, (pre + 2) mod 2^32, ...` in issuance order, and leaves the
counter incremented (with wrap) once per such chunk; as long as the counter
does not pass `2^32 - 1` these numbers are `pre + 1, pre + 2, ...`, strictly
increasing and pairwise distinct.  An emission rejected for a missing
transport or an exhausted budget changes nothing, the counter included. -/
theorem C11_sequence_numbers (channel : UA_SecureChannel) (c : UA_Connection)
    (hc : channel.connection = some c) (ems : List Emission) :
    (∃ new, channelOps (runEmissions channel ems) = c.ops ++ new ∧
      (sentBuffers new).map Buffer.sequenceNumber
        = (List.range (acceptedCount ems)).map
            (fun i => some ((channel.sequenceNumber + i + 1) % 2 ^ 32)) ∧
      (channel.sequenceNumber + acceptedCount ems < 2 ^ 32 →
        sentSequenceNumbers new
          = (List.range (acceptedCount ems)).map (fun i => channel.sequenceNumber + i + 1) ∧
        List.Pairwise (fun a b => a < b) (sentSequenceNumbers new) ∧
        (sentSequenceNumbers new).Nodup)) ∧
    (runEmissions channel ems).sequenceNumber
      = sequenceAfter channel.sequenceNumber (acceptedCount ems) ∧
    (∀ st : SendState, st.channel.connection = none ∨ st.requestInfo.chunksLeft < 1 →
      (UA_SecureChannel_sendChunk st).1 ≠ UA_STATUSCODE_GOOD ∧
      (UA_SecureChannel_sendChunk st).2 = st) := by
  obtain ⟨new, hops, hseq, hfin⟩ := runEmissions_sequenceNumbers ems channel c hc
  refine ⟨⟨new, hops, hseq, ?_⟩, hfin, ?_⟩
  · intro hno
    have hplain : sentSequenceNumbers new
        = (List.range (acceptedCount ems)).map (fun i => channel.sequenceNumber + i + 1) := by
      unfold sentSequenceNumbers
      rw [filterMap_of_map_eq_some Buffer.sequenceNumber
        (fun i => (channel.sequenceNumber + i + 1) % 2 ^ 32) _ _ hseq]
      apply List.map_congr_left
      intro i hi
      have hi1 := List.mem_range.mp hi
      exact Nat.mod_eq_of_lt (by omega)
    have hpair : List.Pairwise (fun a b => a < b) (sentSequenceNumbers new) := by
      rw [hplain, List.pairwise_map]
      exact (List.pairwise_lt_range _).imp (by intro a b hab; omega)
    exact ⟨hplain, hpair, hpair.imp (by intro a b hab; omega)⟩
  · intro st hst
    cases hconn : st.channel.connection with
    | none =>
      have hne : UA_STATUSCODE_BADINTERNALERROR ≠ UA_STATUSCODE_GOOD := by decide
      simp only [UA_SecureChannel_sendChunk, hconn]
      exact ⟨hne, trivial⟩
    | some c1 =>
      rcases hst with h | h
      · rw [hconn] at h
        exact absurd h (by simp)
      · rw [sendChunk_exhausted st c1 hconn h]
        have hne : UA_STATUSCODE_BADTCPMESSAGETOOLARGE ≠ UA_STATUSCODE_GOOD := by decide
        exact ⟨hne, rfl⟩

/-- C11, amended, at three emissions of which the second is refused. -/
theorem C11_sequence_numbers_witness :
    (boundChannel (goodTransport 8192 4) 7).connection = some (goodTransport 8192 4) ∧
    ((∃ new, channelOps (runEmissions (boundChannel (goodTransport 8192 4) 7)
        [finalEmission, { finalEmission with requestInfo :=
          { finalEmission.requestInfo with chunksLeft := 0 } }, finalEmission])
        = (goodTransport 8192 4).ops ++ new ∧
      (sentBuffers new).map Buffer.sequenceNumber
        = (List.range (acceptedCount
            [finalEmission, { finalEmission with requestInfo :=
              { finalEmission.requestInfo with chunksLeft := 0 } }, finalEmission])).map
            (fun i => some (((boundChannel (goodTransport 8192 4) 7).sequenceNumber + i + 1)
              % 2 ^ 32)) ∧
      ((boundChannel (goodTransport 8192 4) 7).sequenceNumber + acceptedCount
            [finalEmission, { finalEmission with requestInfo :=
              { finalEmission.requestInfo with chunksLeft := 0 } }, finalEmission] < 2 ^ 32 →
        sentSequenceNumbers new
          = (List.range (acceptedCount
              [finalEmission, { finalEmission with requestInfo :=
                { finalEmission.requestInfo with chunksLeft := 0 } }, finalEmission])).map
              (fun i => (boundChannel (goodTransport 8192 4) 7).sequenceNumber + i + 1) ∧
        List.Pairwise (fun a b => a < b) (sentSequenceNumbers new) ∧
        (sentSequenceNumbers new).Nodup)) ∧
    (runEmissions (boundChannel (goodTransport 8192 4) 7)
        [finalEmission, { finalEmission with requestInfo :=
          { finalEmission.requestInfo with chunksLeft := 0 } }, finalEmission]).sequenceNumber
      = sequenceAfter (boundChannel (goodTransport 8192 4) 7).sequenceNumber (acceptedCount
          [finalEmission, { finalEmission with requestInfo :=
            { finalEmission.requestInfo with chunksLeft := 0 } }, finalEmission]) ∧
    (∀ st : SendState, st.channel.connection = none ∨ st.requestInfo.chunksLeft < 1 →
      (UA_SecureChannel_sendChunk st).1 ≠ UA_STATUSCODE_GOOD ∧
      (UA_SecureChannel_sendChunk st).2 = st)) :=
  ⟨rfl, C11_sequence_numbers (boundChannel (goodTransport 8192 4) 7) (goodTransport 8192 4) rfl
    [finalEmission, { finalEmission with requestInfo :=
      { finalEmission.requestInfo with chunksLeft := 0 } }, finalEmission]⟩

/-! ## C17: the transport operations of one chunk -/

/-- C17 on an intermediate and on a final chunk: the buffer is handed to `send`
and then to the transport's `releaseRecvBuffer` member (not to
`releaseSendBuffer`); the intermediate chunk then asks `getSendBuffer` for
`sendBufferSize` bytes and leaves the offset at 24 and the declared length at
`sendBufferSize`, the final chunk asks for no buffer. -/
theorem C17_buffer_released_through_recv_member :
    channelOps (UA_SecureChannel_sendChunk
        (chunkState 5 8192 UA_ChunkType.INTERMEDIATE 3)).2.channel
      = [TransportOp.send (chunkBufferOf UA_MessageType.MSG UA_ChunkType.INTERMEDIATE 1001
            { channelId := 7, tokenId := 42, createdAt := 0, revisedLifetime := 0 } 5 8192),
          TransportOp.releaseRecvBuffer (chunkBufferOf UA_MessageType.MSG
            UA_ChunkType.INTERMEDIATE 1001
            { channelId := 7, tokenId := 42, createdAt := 0, revisedLifetime := 0 } 5 8192),
          TransportOp.getSendBuffer 8192] ∧
    (UA_SecureChannel_sendChunk (chunkState 5 8192 UA_ChunkType.INTERMEDIATE 3)).2.offset = 24 ∧
    (UA_SecureChannel_sendChunk (chunkState 5 8192 UA_ChunkType.INTERMEDIATE 3)).2.dst.length
      = 8192 ∧
    channelOps (UA_SecureChannel_sendChunk (chunkState 5 100 UA_ChunkType.FINAL 3)).2.channel
      = [TransportOp.send (chunkBufferOf UA_MessageType.MSG UA_ChunkType.FINAL 1001
            { channelId := 7, tokenId := 42, createdAt := 0, revisedLifetime := 0 } 5 100),
          TransportOp.releaseRecvBuffer (chunkBufferOf UA_MessageType.MSG UA_ChunkType.FINAL 1001
            { channelId := 7, tokenId := 42, createdAt := 0, revisedLifetime := 0 } 5 100)] := by
  decide

/-! ## C18: sends that are refused at once -/

/-- C18: `UA_SecureChannel_sendBinaryMessage` returns `BadInternalError` when the
channel has no bound transport and when the type identifier is not of numeric
kind; in both cases the channel after the call is the channel before it, so no
transport operation was performed and the sequence number and both tokens are
unchanged. -/
theorem C18_refused_send_changes_nothing (encodingOffset : Nat) (channel : UA_SecureChannel)
    (requestId : Nat) (content : Codec) (contentType : UA_DataType)
    (h : channel.connection = none ∨ contentType.typeId.identifier.isNumeric = false) :
    (UA_SecureChannel_sendBinaryMessage encodingOffset channel requestId content
        contentType).status = UA_STATUSCODE_BADINTERNALERROR ∧
    (UA_SecureChannel_sendBinaryMessage encodingOffset channel requestId content
        contentType).channel = channel ∧
    channelOps (UA_SecureChannel_sendBinaryMessage encodingOffset channel requestId content
        contentType).channel = channelOps channel ∧
    (UA_SecureChannel_sendBinaryMessage encodingOffset channel requestId content
        contentType).channel.sequenceNumber = channel.sequenceNumber ∧
    (UA_SecureChannel_sendBinaryMessage encodingOffset channel requestId content
        contentType).channel.securityToken = channel.securityToken ∧
    (UA_SecureChannel_sendBinaryMessage encodingOffset channel requestId content
        contentType).channel.nextSecurityToken = channel.nextSecurityToken := by
  have hres : UA_SecureChannel_sendBinaryMessage encodingOffset channel requestId content
      contentType
      = { status := UA_STATUSCODE_BADINTERNALERROR, channel := channel, requestInfo := none } := by
    unfold UA_SecureChannel_sendBinaryMessage
    cases hc : channel.connection with
    | none => rfl
    | some c =>
      rcases h with h | h
      · rw [hc] at h
        exact absurd h (by simp)
      · cases hid : contentType.typeId.identifier with
        | numeric n => simp [hid, UA_NodeIdIdentifier.isNumeric] at h
        | string s => rfl
        | guid g => rfl
        | byteString b => rfl
  rw [hres]
  exact ⟨rfl, rfl, rfl, rfl, rfl, rfl⟩

/-- C18 on a bound channel and a type descriptor with a string identifier. -/
theorem C18_refused_send_witness :
    ((boundChannel (goodTransport 8192 4) 5).connection = none ∨
      (UA_NodeIdIdentifier.string [115, 49]).isNumeric = false) ∧
    ((UA_SecureChannel_sendBinaryMessage 2 (boundChannel (goodTransport 8192 4) 5) 1001
        (payloadScript [] 100)
        { typeId := { namespaceIndex := 1
                      identifier := UA_NodeIdIdentifier.string [115, 49] } }).status
      = UA_STATUSCODE_BADINTERNALERROR ∧
    (UA_SecureChannel_sendBinaryMessage 2 (boundChannel (goodTransport 8192 4) 5) 1001
        (payloadScript [] 100)
        { typeId := { namespaceIndex := 1
                      identifier := UA_NodeIdIdentifier.string [115, 49] } }).channel
      = boundChannel (goodTransport 8192 4) 5 ∧
    channelOps (UA_SecureChannel_sendBinaryMessage 2 (boundChannel (goodTransport 8192 4) 5) 1001
        (payloadScript [] 100)
        { typeId := { namespaceIndex := 1
                      identifier := UA_NodeIdIdentifier.string [115, 49] } }).channel
      = channelOps (boundChannel (goodTransport 8192 4) 5) ∧
    (UA_SecureChannel_sendBinaryMessage 2 (boundChannel (goodTransport 8192 4) 5) 1001
        (payloadScript [] 100)
        { typeId := { namespaceIndex := 1
                      identifier := UA_NodeIdIdentifier.string [115, 49] } }).channel.sequenceNumber
      = (boundChannel (goodTransport 8192 4) 5).sequenceNumber ∧
    (UA_SecureChannel_sendBinaryMessage 2 (boundChannel (goodTransport 8192 4) 5) 1001
        (payloadScript [] 100)
        { typeId := { namespaceIndex := 1
                      identifier := UA_NodeIdIdentifier.string [115, 49] } }).channel.securityToken
      = (boundChannel (goodTransport 8192 4) 5).securityToken ∧
    (UA_SecureChannel_sendBinaryMessage 2 (boundChannel (goodTransport 8192 4) 5) 1001
        (payloadScript [] 100)
        { typeId := { namespaceIndex := 1
                      identifier := UA_NodeIdIdentifier.string [115, 49] } }).channel.nextSecurityToken
      = (boundChannel (goodTransport 8192 4) 5).nextSecurityToken) :=
  ⟨Or.inr rfl,
    C18_refused_send_changes_nothing 2 (boundChannel (goodTransport 8192 4) 5) 1001
      (payloadScript [] 100)
      { typeId := { namespaceIndex := 1, identifier := UA_NodeIdIdentifier.string [115, 49] } }
      (Or.inr rfl)⟩

/-! ## C20: the final chunk after a failed encoding -/

/-- A bitwise disjunction is zero only if both sides are. -/
theorem lor_eq_zero (a b : Nat) (h : a ||| b = 0) : a = 0 ∧ b = 0 := by
  constructor
  · apply Nat.eq_of_testBit_eq
    intro i
    have h1 := congrArg (fun x => Nat.testBit x i) h
    simp only [Nat.testBit_or, Nat.zero_testBit, Bool.or_eq_false_iff] at h1
    simp [h1.1]
  · apply Nat.eq_of_testBit_eq
    intro i
    have h1 := congrArg (fun x => Nat.testBit x i) h
    simp only [Nat.testBit_or, Nat.zero_testBit, Bool.or_eq_false_iff] at h1
    simp [h1.2]

/-- C20: on a bound channel that acquired its initial buffer, when the encoding
of the type identifier or of the payload has failed and at least one chunk of
budget remains after it, `UA_SecureChannel_sendBinaryMessage` still ends by
handing one chunk to the transport, tagged with the message kind and FINAL and
carrying the next sequence number, which the channel's counter then holds, and
returns a status that is not `GOOD`. -/
theorem C20_final_chunk_after_failed_encoding (encodingOffset : Nat)
    (channel : UA_SecureChannel) (c : UA_Connection) (requestId : Nat) (content : Codec)
    (namespaceIndex n : Nat)
    (hc : channel.connection = some c)
    (h0 : c.getSendBufferStatus (countGetSendBuffer c.ops) = UA_STATUSCODE_GOOD)
    (hfail : content.typeIdStatus ≠ UA_STATUSCODE_GOOD ∨
      (payloadEncoded encodingOffset channel c requestId content n).1 ≠ UA_STATUSCODE_GOOD)
    (hbudget : 1 ≤ (payloadEncoded encodingOffset channel c requestId content
      n).2.requestInfo.chunksLeft) :
    (UA_SecureChannel_sendBinaryMessage encodingOffset channel requestId content
        { typeId := { namespaceIndex := namespaceIndex
                      identifier := UA_NodeIdIdentifier.numeric n } }).status
      ≠ UA_STATUSCODE_GOOD ∧
    ∃ c1 fb,
      (payloadEncoded encodingOffset channel c requestId content n).2.channel.connection
        = some c1 ∧
      channelOps (UA_SecureChannel_sendBinaryMessage encodingOffset channel requestId content
        { typeId := { namespaceIndex := namespaceIndex
                      identifier := UA_NodeIdIdentifier.numeric n } }).channel
        = c1.ops ++ [TransportOp.send fb, TransportOp.releaseRecvBuffer fb] ∧
      fb.tag = some ((messageTypeOf ((n + encodingOffset) % 2 ^ 32)).toNat
        + UA_ChunkType.FINAL.toNat) ∧
      fb.sequenceNumber = some
        (((payloadEncoded encodingOffset channel c requestId content
          n).2.channel.sequenceNumber + 1) % 2 ^ 32) ∧
      (UA_SecureChannel_sendBinaryMessage encodingOffset channel requestId content
        { typeId := { namespaceIndex := namespaceIndex
                      identifier := UA_NodeIdIdentifier.numeric n } }).channel.sequenceNumber
        = ((payloadEncoded encodingOffset channel c requestId content
          n).2.channel.sequenceNumber + 1) % 2 ^ 32 := by
  rw [sendBinaryMessage_acquired encodingOffset channel c requestId content namespaceIndex n hc h0]
  obtain ⟨hm, _, c1, new1, hc1, _, _⟩ :=
    encode_tags content.payloadStatus content.finalOffset content.overflowOffsets
      (stateAfterTypeId
        { channel with
          connection := some
            { c with ops := c.ops ++ [TransportOp.getSendBuffer c.localConf.sendBufferSize] } }
        { c with ops := c.ops ++ [TransportOp.getSendBuffer c.localConf.sendBufferSize] }
        requestId content ((n + encodingOffset) % 2 ^ 32)
        { length := c.localConf.sendBufferSize, headers := none })
      { c with ops := c.ops ++ [TransportOp.getSendBuffer c.localConf.sendBufferSize] } rfl
  simp only [sendBinaryMessageBody]
  unfold payloadEncoded at hfail hbudget ⊢
  generalize UA_encodeBinary content.payloadStatus content.finalOffset content.overflowOffsets
    (stateAfterTypeId
      { channel with
        connection := some
          { c with ops := c.ops ++ [TransportOp.getSendBuffer c.localConf.sendBufferSize] } }
      { c with ops := c.ops ++ [TransportOp.getSendBuffer c.localConf.sendBufferSize] }
      requestId content ((n + encodingOffset) % 2 ^ 32)
      { length := c.localConf.sendBufferSize, headers := none }) = r
    at hm hc1 hfail hbudget ⊢
  simp only [stateAfterTypeId] at hm
  have hfin := sendChunk_final (switchToFinal r.2) c1
    (by simp only [switchToFinal, hc1])
    (by simp only [switchToFinal]; exact hbudget)
    (by simp [switchToFinal])
  rw [hfin]
  refine ⟨?_, c1,
    chunkBufferOf r.2.requestInfo.messageType UA_ChunkType.FINAL r.2.requestInfo.requestId
      r.2.channel.securityToken r.2.channel.sequenceNumber r.2.offset,
    hc1, ?_, ?_, ?_, ?_⟩
  · intro hzero
    have h1 := (lor_eq_zero _ _ hzero).1
    have h2 := lor_eq_zero _ _ h1
    have h3 := (lor_eq_zero _ _ h2.1).2
    rcases hfail with hf | hf
    · exact hf h3
    · exact hf h2.2
  · simp only [channelOps, switchToFinal]
  · simp only [Buffer.tag, chunkBufferOf, switchToFinal, hm, Option.map_some']
  · simp only [Buffer.sequenceNumber, chunkBufferOf, switchToFinal, Option.map_some']
  · simp only [switchToFinal]

/-- C20 at a payload that overflows once and then fails in the encoder, with a
budget of 4 chunks. -/
theorem C20_final_chunk_after_failed_encoding_witness :
    (boundChannel (goodTransport 8192 4) 9).connection = some (goodTransport 8192 4) ∧
    (goodTransport 8192 4).getSendBufferStatus (countGetSendBuffer (goodTransport 8192 4).ops)
      = UA_STATUSCODE_GOOD ∧
    (failingPayloadScript.typeIdStatus ≠ UA_STATUSCODE_GOOD ∨
      (payloadEncoded 2 (boundChannel (goodTransport 8192 4) 9) (goodTransport 8192 4) 1001
        failingPayloadScript 631).1 ≠ UA_STATUSCODE_GOOD) ∧
    1 ≤ (payloadEncoded 2 (boundChannel (goodTransport 8192 4) 9) (goodTransport 8192 4) 1001
      failingPayloadScript 631).2.requestInfo.chunksLeft ∧
    ((UA_SecureChannel_sendBinaryMessage 2 (boundChannel (goodTransport 8192 4) 9) 1001
        failingPayloadScript
        { typeId := { namespaceIndex := 0
                      identifier := UA_NodeIdIdentifier.numeric 631 } }).status
      ≠ UA_STATUSCODE_GOOD ∧
    ∃ c1 fb,
      (payloadEncoded 2 (boundChannel (goodTransport 8192 4) 9) (goodTransport 8192 4) 1001
        failingPayloadScript 631).2.channel.connection = some c1 ∧
      channelOps (UA_SecureChannel_sendBinaryMessage 2 (boundChannel (goodTransport 8192 4) 9)
        1001 failingPayloadScript
        { typeId := { namespaceIndex := 0
                      identifier := UA_NodeIdIdentifier.numeric 631 } }).channel
        = c1.ops ++ [TransportOp.send fb, TransportOp.releaseRecvBuffer fb] ∧
      fb.tag = some ((messageTypeOf ((631 + 2) % 2 ^ 32)).toNat + UA_ChunkType.FINAL.toNat) ∧
      fb.sequenceNumber = some
        (((payloadEncoded 2 (boundChannel (goodTransport 8192 4) 9) (goodTransport 8192 4) 1001
          failingPayloadScript 631).2.channel.sequenceNumber + 1) % 2 ^ 32) ∧
      (UA_SecureChannel_sendBinaryMessage 2 (boundChannel (goodTransport 8192 4) 9) 1001
        failingPayloadScript
        { typeId := { namespaceIndex := 0
                      identifier := UA_NodeIdIdentifier.numeric 631 } }).channel.sequenceNumber
        = ((payloadEncoded 2 (boundChannel (goodTransport 8192 4) 9) (goodTransport 8192 4) 1001
          failingPayloadScript 631).2.channel.sequenceNumber + 1) % 2 ^ 32) :=
  ⟨rfl, rfl, by decide, by decide,
    C20_final_chunk_after_failed_encoding 2 (boundChannel (goodTransport 8192 4) 9)
      (goodTransport 8192 4) 1001 failingPayloadScript 0 631 rfl rfl (by decide) (by decide)⟩

/-! ## C19: two concurrent attach calls -/

/-- The insertion of line 70 after a successful claim completes the attach. -/
theorem insert_after_claim (w : World) (c s : Nat) (hfree : (w.sessions s).channel = none) :
    ({ claimedWorld w c s with
       channels := store (claimedWorld w c s).channels c
         { (claimedWorld w c s).channels c with
           sessions := { session := some s } :: ((claimedWorld w c s).channels c).sessions } }
      : World)
      = UA_SecureChannel_attachSession w c s true := by
  simp [UA_SecureChannel_attachSession, hfree, claimedWorld]

/-- A thread that runs alone takes three steps and does what the sequential
function does. -/
theorem attachThread_alone (w : World) (c s : Nat) (ok : Bool) :
    ((attachRace w c c s ok ok).run [true, true, true]).world
      = UA_SecureChannel_attachSession w c s ok ∧
    ((attachRace w c c s ok ok).run [true, true, true]).first.pc = AttachPc.finished := by
  cases ok
  · simp [attachRace, Race.run, Race.step, AttachThread.step, UA_SecureChannel_attachSession]
  · by_cases hfree : (w.sessions s).channel = none
    · simp [attachRace, Race.run, Race.step, AttachThread.step, hfree,
        UA_SecureChannel_attachSession, claimedWorld]
    · simp [attachRace, Race.run, Race.step, AttachThread.step, hfree,
        UA_SecureChannel_attachSession]

/-- After the claim the back-reference is the claiming channel. -/
theorem claimedWorld_channel (w : World) (c s : Nat) :
    ((claimedWorld w c s).sessions s).channel = some c := by
  simp [claimedWorld, store]

/-- After the attach of an unattached session its back-reference is the channel. -/
theorem attached_channel (w : World) (c s : Nat) (hfree : (w.sessions s).channel = none) :
    ((UA_SecureChannel_attachSession w c s true).sessions s).channel = some c := by
  simp [UA_SecureChannel_attachSession, hfree, store]

/-- Every step of the race keeps the invariant. -/
theorem raceInv_step (w : World) (c1 c2 s : Nat) (ok1 ok2 : Bool)
    (hfree : (w.sessions s).channel = none) (r : Race) (pick : Bool)
    (h : RaceInv w c1 c2 s ok1 ok2 r) : RaceInv w c1 c2 s ok1 ok2 (r.step pick) := by
  have hins1 := insert_after_claim w c1 s hfree
  have hins2 := insert_after_claim w c2 s hfree
  have hcl1 := claimedWorld_channel w c1 s
  have hcl2 := claimedWorld_channel w c2 s
  have hat1 := attached_channel w c1 s hfree
  have hat2 := attached_channel w c2 s hfree
  obtain ⟨world, ⟨ch1, s1, a1, pc1⟩, ⟨ch2, s2, a2, pc2⟩⟩ := r
  obtain ⟨h1, h2, h3, h4, h5, h6, hcase⟩ := h
  simp only at h1 h2 h3 h4 h5 h6 hcase
  subst h1 h2 h3 h4 h5 h6
  rcases hcase with ⟨hw, hp1, hp2⟩ | ⟨hw, hp1, hp2⟩ | ⟨hw, hp1, hp2⟩ | ⟨hw, hp1, hp2⟩ |
    ⟨hw, hp1, hp2⟩ <;> subst hw <;> cases pick <;> cases pc1 <;> cases pc2 <;>
    simp_all [RaceInv, NotClaiming, Race.step, AttachThread.step] <;>
    (try (cases a1 <;> simp_all)) <;> (try (cases a2 <;> simp_all))

/-- Every state of the race satisfies the invariant. -/
theorem raceInv_run (w : World) (c1 c2 s : Nat) (ok1 ok2 : Bool)
    (hfree : (w.sessions s).channel = none) (schedule : List Bool) (r : Race)
    (h : RaceInv w c1 c2 s ok1 ok2 r) : RaceInv w c1 c2 s ok1 ok2 (r.run schedule) := by
  induction schedule generalizing r with
  | nil => exact h
  | cons pick rest ih => exact ih _ (raceInv_step w c1 c2 s ok1 ok2 hfree r pick h)

/-- C19: for every interleaving of two concurrent
`UA_SecureChannel_attachSession` calls that attach the same unattached session
`s` to two different channels `c1` and `c2` (multithreaded build, the
compare-and-swap being one atomic step), at every moment at most one of the two
registries has gained an entry and the back-reference of `s` is absent, `c1` or
`c2`; and once both calls have returned, exactly one call has bound `s` and
inserted its entry while the registry of the losing channel is as it was, or
both allocations failed and nothing has changed. -/
theorem C19_concurrent_attach_one_winner (w : World) (c1 c2 s : Nat) (ok1 ok2 : Bool)
    (schedule : List Bool) (hne : c1 ≠ c2) (hfree : (w.sessions s).channel = none) :
    ((((attachRace w c1 c2 s ok1 ok2).run schedule).world.channels c1).sessions
        = (w.channels c1).sessions ∨
      (((attachRace w c1 c2 s ok1 ok2).run schedule).world.channels c2).sessions
        = (w.channels c2).sessions) ∧
    ((((attachRace w c1 c2 s ok1 ok2).run schedule).world.sessions s).channel = none ∨
      (((attachRace w c1 c2 s ok1 ok2).run schedule).world.sessions s).channel = some c1 ∨
      (((attachRace w c1 c2 s ok1 ok2).run schedule).world.sessions s).channel = some c2) ∧
    (((attachRace w c1 c2 s ok1 ok2).run schedule).first.pc = AttachPc.finished →
      ((attachRace w c1 c2 s ok1 ok2).run schedule).second.pc = AttachPc.finished →
      ((((attachRace w c1 c2 s ok1 ok2).run schedule).world.sessions s).channel = some c1 ∧
        (((attachRace w c1 c2 s ok1 ok2).run schedule).world.channels c1).sessions
          = { session := some s } :: (w.channels c1).sessions ∧
        (((attachRace w c1 c2 s ok1 ok2).run schedule).world.channels c2).sessions
          = (w.channels c2).sessions) ∨
      ((((attachRace w c1 c2 s ok1 ok2).run schedule).world.sessions s).channel = some c2 ∧
        (((attachRace w c1 c2 s ok1 ok2).run schedule).world.channels c2).sessions
          = { session := some s } :: (w.channels c2).sessions ∧
        (((attachRace w c1 c2 s ok1 ok2).run schedule).world.channels c1).sessions
          = (w.channels c1).sessions) ∨
      ((((attachRace w c1 c2 s ok1 ok2).run schedule).world.sessions s).channel = none ∧
        (((attachRace w c1 c2 s ok1 ok2).run schedule).world.channels c1).sessions
          = (w.channels c1).sessions ∧
        (((attachRace w c1 c2 s ok1 ok2).run schedule).world.channels c2).sessions
          = (w.channels c2).sessions ∧
        ok1 = false ∧ ok2 = false)) := by
  have hinit : RaceInv w c1 c2 s ok1 ok2 (attachRace w c1 c2 s ok1 ok2) := by
    simp [RaceInv, attachRace, NotClaiming]
  have hinv := raceInv_run w c1 c2 s ok1 ok2 hfree schedule _ hinit
  have h21 : c2 ≠ c1 := fun h => hne h.symm
  generalize (attachRace w c1 c2 s ok1 ok2).run schedule = r at hinv ⊢
  obtain ⟨_, _, _, _, _, _, hcase⟩ := hinv
  rcases hcase with ⟨hw, hp1, hp2⟩ | ⟨hw, hp1, hp2⟩ | ⟨hw, hp1, hp2⟩ | ⟨hw, hp1, hp2⟩ |
    ⟨hw, hp1, hp2⟩
  · rw [hw]
    refine ⟨Or.inl rfl, Or.inl hfree, ?_⟩
    intro hf1 hf2
    rcases hp1 with h | h | h
    · rw [hf1] at h; cases h
    · rw [hf1] at h; cases h
    · rcases hp2 with g | g | g
      · rw [hf2] at g; cases g
      · rw [hf2] at g; cases g
      · exact Or.inr (Or.inr ⟨hfree, rfl, rfl, h.2, g.2⟩)
  · rw [hw]
    refine ⟨Or.inl rfl, Or.inr (Or.inl (claimedWorld_channel w c1 s)), ?_⟩
    intro hf1 _
    rw [hf1] at hp1
    cases hp1
  · rw [hw]
    have hreg1 : ((UA_SecureChannel_attachSession w c1 s true).channels c1).sessions
        = { session := some s } :: (w.channels c1).sessions := by
      simp [UA_SecureChannel_attachSession, hfree, store]
    have hreg2 : ((UA_SecureChannel_attachSession w c1 s true).channels c2).sessions
        = (w.channels c2).sessions := by
      simp [UA_SecureChannel_attachSession, hfree, store, h21]
    exact ⟨Or.inr hreg2, Or.inr (Or.inl (attached_channel w c1 s hfree)),
      fun _ _ => Or.inl ⟨attached_channel w c1 s hfree, hreg1, hreg2⟩⟩
  · rw [hw]
    refine ⟨Or.inl rfl, Or.inr (Or.inr (claimedWorld_channel w c2 s)), ?_⟩
    intro _ hf2
    rw [hf2] at hp1
    cases hp1
  · rw [hw]
    have hreg2 : ((UA_SecureChannel_attachSession w c2 s true).channels c2).sessions
        = { session := some s } :: (w.channels c2).sessions := by
      simp [UA_SecureChannel_attachSession, hfree, store]
    have hreg1 : ((UA_SecureChannel_attachSession w c2 s true).channels c1).sessions
        = (w.channels c1).sessions := by
      simp [UA_SecureChannel_attachSession, hfree, store, hne]
    exact ⟨Or.inl hreg1, Or.inr (Or.inr (attached_channel w c2 s hfree)),
      fun _ _ => Or.inr (Or.inl ⟨attached_channel w c2 s hfree, hreg2, hreg1⟩)⟩

/-- C19 at one interleaving of two calls that attach session 5 to channels 1
and 2: the first call allocates, the second allocates and wins the
compare-and-swap, the first loses it and returns, the second inserts. -/
theorem C19_concurrent_attach_witness :
    (1 : Nat) ≠ 2 ∧
    (freshWorld.sessions 5).channel = none ∧
    ((attachRace freshWorld 1 2 5 true true).run
      [true, false, false, true, false, true]).first.pc = AttachPc.finished ∧
    ((attachRace freshWorld 1 2 5 true true).run
      [true, false, false, true, false, true]).second.pc = AttachPc.finished ∧
    (((((attachRace freshWorld 1 2 5 true true).run [true, false, false, true, false, true]).world.channels 1).sessions
        = (freshWorld.channels 1).sessions ∨
      (((attachRace freshWorld 1 2 5 true true).run [true, false, false, true, false, true]).world.channels 2).sessions
        = (freshWorld.channels 2).sessions) ∧
    ((((attachRace freshWorld 1 2 5 true true).run [true, false, false, true, false, true]).world.sessions 5).channel = none ∨
      (((attachRace freshWorld 1 2 5 true true).run [true, false, false, true, false, true]).world.sessions 5).channel = some 1 ∨
      (((attachRace freshWorld 1 2 5 true true).run [true, false, false, true, false, true]).world.sessions 5).channel = some 2) ∧
    (((attachRace freshWorld 1 2 5 true true).run [true, false, false, true, false, true]).first.pc = AttachPc.finished →
      ((attachRace freshWorld 1 2 5 true true).run [true, false, false, true, false, true]).second.pc = AttachPc.finished →
      ((((attachRace freshWorld 1 2 5 true true).run [true, false, false, true, false, true]).world.sessions 5).channel = some 1 ∧
        (((attachRace freshWorld 1 2 5 true true).run [true, false, false, true, false, true]).world.channels 1).sessions
          = { session := some 5 } :: (freshWorld.channels 1).sessions ∧
        (((attachRace freshWorld 1 2 5 true true).run [true, false, false, true, false, true]).world.channels 2).sessions
          = (freshWorld.channels 2).sessions) ∨
      ((((attachRace freshWorld 1 2 5 true true).run [true, false, false, true, false, true]).world.sessions 5).channel = some 2 ∧
        (((attachRace freshWorld 1 2 5 true true).run [true, false, false, true, false, true]).world.channels 2).sessions
          = { session := some 5 } :: (freshWorld.channels 2).sessions ∧
        (((attachRace freshWorld 1 2 5 true true).run [true, false, false, true, false, true]).world.channels 1).sessions
          = (freshWorld.channels 1).sessions) ∨
      ((((attachRace freshWorld 1 2 5 true true).run [true, false, false, true, false, true]).world.sessions 5).channel = none ∧
        (((attachRace freshWorld 1 2 5 true true).run [true, false, false, true, false, true]).world.channels 1).sessions
          = (freshWorld.channels 1).sessions ∧
        (((attachRace freshWorld 1 2 5 true true).run [true, false, false, true, false, true]).world.channels 2).sessions
          = (freshWorld.channels 2).sessions ∧
        true = false ∧ true = false))) :=
  ⟨by decide, rfl, by decide, by decide,
    C19_concurrent_attach_one_winner freshWorld 1 2 5 true true
      [true, false, false, true, false, true] (by decide) rfl⟩
